import Mathlib

/-!
Verification development for the logiface structured-logging facade.

The Go source is shallowly embedded: pure functions become Lean functions,
in-place mutation of events/builders becomes explicit value threading, and
side effects (pool puts, writer flushes, DPanic reports, callback
invocations) are recorded in explicit result records.  Go `nil` pointers
are `Option.none`.  Machine integers (`int64` durations, `Level`) are
modelled as `Int`; Go integer division truncates toward zero, which is
`Int.div`.
-/

namespace Logiface

/-- Modelled from the spec: `Level` (level.go is not under src/).  A signed
small integer; `Disabled` is the least verbose sentinel; increasing values
mean increasing verbosity (Emergency < Alert < ... < Trace), with a custom
range above the named levels. -/
abbrev Level := Int

def LevelDisabled : Level := -1

def LevelEmergency : Level := 0

def LevelAlert : Level := 1

def LevelCritical : Level := 2

def LevelError : Level := 3

def LevelWarning : Level := 4

def LevelNotice : Level := 5

def LevelInformational : Level := 6

def LevelDebug : Level := 7

def LevelTrace : Level := 8

/-- Modelled from the spec: the enabled-check against the disabled sentinel
(level.go is not under src/).  Every named level and the custom range above
them is enabled; the `Disabled` sentinel (and nothing below it exists) is
not. -/
def Level.Enabled (l : Level) : Bool := decide (0 ≤ l)

/-- Go `strings.TrimSuffix`: drops `suffix` from the end of `s` when
present, otherwise returns `s` unchanged. -/
def trimSuffix (s suf : String) : String :=
  if suf.data.isSuffixOf s.data then
    String.mk (s.data.take (s.data.length - suf.data.length))
  else s

/-- The nine decimal digits of a nanosecond value, most significant first.
This is the fractional part produced by Go's `.000000000` layout element
(and by `%09d`) for `0 ≤ n < 10^9`. -/
def frac9 (n : Nat) : List Char :=
  [Nat.digitChar (n / 100000000 % 10), Nat.digitChar (n / 10000000 % 10),
   Nat.digitChar (n / 1000000 % 10), Nat.digitChar (n / 100000 % 10),
   Nat.digitChar (n / 10000 % 10), Nat.digitChar (n / 1000 % 10),
   Nat.digitChar (n / 100 % 10), Nat.digitChar (n / 10 % 10),
   Nat.digitChar (n % 10)]

/-- Zero-pad the decimal rendering of `n` to width `w` (Go's numeric
layout elements such as `2006`, `01`, `15`). -/
def padNat (w n : Nat) : String :=
  let s := toString n
  String.mk (List.replicate (w - s.length) '0') ++ s

/-- A Go `time.Time` instant, recorded by its UTC clock reading.  The
`t.UTC()` conversion in `formatTimestamp` is the identity under this
representation. -/
structure GoTime where
  year : Nat
  month : Nat
  day : Nat
  hour : Nat
  minute : Nat
  second : Nat
  nanos : Nat
deriving DecidableEq, Repr

/-- The `2006-01-02T15:04:05` part of the RFC 3339 layout used by
`formatTimestamp` (no fractional digits). -/
def goTimeBase (t : GoTime) : String :=
  padNat 4 t.year ++ "-" ++ padNat 2 t.month ++ "-" ++ padNat 2 t.day ++ "T" ++
    padNat 2 t.hour ++ ":" ++ padNat 2 t.minute ++ ":" ++ padNat 2 t.second

/-- Embeds `formatTimestamp` (src/go.mod): format in UTC with exactly nine
fractional digits, then trim `"000"` twice and `".000"` once, and append
`"Z"`. -/
def formatTimestamp (t : GoTime) : String :=
  trimSuffix (trimSuffix (trimSuffix
    (goTimeBase t ++ "." ++ String.mk (frac9 t.nanos)) "000") "000") ".000" ++ "Z"

/-- Embeds `formatDuration` (src/go.mod).  The argument is
`d.Nanoseconds()` as an integer.  `secs` uses Go's truncating division
(`Int.tdiv`); the sign is normalized onto both components before
formatting.  After normalization the reachable `nanos` satisfies
`0 ≤ nanos < 10^9`, so Go's `%09d` is `frac9` of its `toNat`. -/
def formatDuration (d : Int) : String :=
  let nanos := d
  let secs := Int.tdiv nanos 1000000000
  let nanos := nanos - secs * 1000000000
  let signed := secs < 0 || nanos < 0
  let sign := if signed then "-" else ""
  let secs := if signed then -secs else secs
  let nanos := if signed then -nanos else nanos
  let x := sign ++ toString secs ++ "." ++ String.mk (frac9 nanos.toNat)
  trimSuffix (trimSuffix (trimSuffix x "000") "000") ".000" ++ "s"

example : formatDuration 1000000000 = "1s" := by decide
example : formatDuration (-1500000000) = "-1.500s" := by decide
example : formatDuration 1500000000 = "1.500s" := by decide
example : formatDuration (-500000000) = "-0.500s" := by decide
example : formatTimestamp ⟨1972, 1, 1, 10, 0, 20, 21000000⟩ = "1972-01-01T10:00:20.021Z" := by decide
example : formatTimestamp ⟨2023, 2, 11, 20, 30, 19, 0⟩ = "2023-02-11T20:30:19Z" := by decide

/-- The standard base64 alphabet (Go `encoding/base64.StdEncoding`). -/
def b64Char (n : Nat) : Char :=
  "ABCDEFGHIJKLMNOPQRSTUVWXYZabcdefghijklmnopqrstuvwxyz0123456789+/".data.getD n 'A'

/-- Go `base64.StdEncoding.EncodeToString` over a byte slice (each byte a
`Nat` below 256): three bytes become four alphabet characters, with `=`
padding for a short final group. -/
def base64Encode : List Nat → List Char
  | [] => []
  | [a] => [b64Char (a / 4), b64Char (a % 4 * 16), '=', '=']
  | [a, b] => [b64Char (a / 4), b64Char (a % 4 * 16 + b / 16), b64Char (b % 16 * 4), '=']
  | a :: b :: c :: rest =>
      b64Char (a / 4) :: b64Char (a % 4 * 16 + b / 16) ::
        b64Char (b % 16 * 4 + c / 64) :: b64Char (c % 64) :: base64Encode rest

/-- A dynamic Go value (`any`) as routed by the `Field` type switch.
`vFloat32` carries an opaque token standing for a `float32` value (the
dispatch code never computes with it), `vErr` an error's identity, and
`vOther` any other dynamic type. -/
inductive GoValue where
  | vString (s : String)
  | vBytes (b : List Nat)
  | vTime (t : GoTime)
  | vDuration (d : Int)
  | vInt (n : Int)
  | vFloat32 (tok : Nat)
  | vErr (e : String)
  | vOther (tok : Nat)
deriving DecidableEq, Repr

/-- Modelled from the spec: the Event capability contract (§6; the mock
event used by the tests is not under src/).  The event owns its `Level`;
each specialized `Add*` primitive reports whether it handled the value, so
the `*Handled` flags record which primitives this backend implements.
Handled messages/errors land in `msg`/`errv`; handled typed fields and
generic `AddField` calls append to `fields`. -/
structure MockEvent where
  level : Level
  msgHandled : Bool
  errHandled : Bool
  strHandled : Bool
  intHandled : Bool
  float32Handled : Bool
  msg : Option String
  errv : Option String
  fields : List (String × GoValue)
deriving DecidableEq, Repr

def MockEvent.AddField (e : MockEvent) (k : String) (v : GoValue) : MockEvent :=
  { e with fields := e.fields ++ [(k, v)] }

def MockEvent.AddMessage (e : MockEvent) (m : String) : MockEvent × Bool :=
  if e.msgHandled then ({ e with msg := some m }, true) else (e, false)

def MockEvent.AddError (e : MockEvent) (err : String) : MockEvent × Bool :=
  if e.errHandled then ({ e with errv := some err }, true) else (e, false)

def MockEvent.AddString (e : MockEvent) (k v : String) : MockEvent × Bool :=
  if e.strHandled then ({ e with fields := e.fields ++ [(k, GoValue.vString v)] }, true)
  else (e, false)

def MockEvent.AddInt (e : MockEvent) (k : String) (v : Int) : MockEvent × Bool :=
  if e.intHandled then ({ e with fields := e.fields ++ [(k, GoValue.vInt v)] }, true)
  else (e, false)

def MockEvent.AddFloat32 (e : MockEvent) (k : String) (v : Nat) : MockEvent × Bool :=
  if e.float32Handled then ({ e with fields := e.fields ++ [(k, GoValue.vFloat32 v)] }, true)
  else (e, false)

/-- The sentinel result a field-setter reports when the event's level gate
rejects the write (`ErrDisabled` in the source). -/
inductive FieldError where
  | ErrDisabled
deriving DecidableEq, Repr

/-- Embeds `modifierMethods.str` (src/go.mod): try `AddString`, fall back
to `AddField`. -/
def modifierMethods.str (e : MockEvent) (k v : String) : MockEvent :=
  let p := e.AddString k v
  if p.2 then p.1 else p.1.AddField k (GoValue.vString v)

/-- Embeds `modifierMethods.bytes` (src/go.mod): base64 then the string
path. -/
def modifierMethods.bytes (e : MockEvent) (k : String) (val : List Nat) : MockEvent :=
  modifierMethods.str e k (String.mk (base64Encode val))

/-- Embeds `modifierMethods.timestamp` (src/go.mod). -/
def modifierMethods.timestamp (e : MockEvent) (k : String) (t : GoTime) : MockEvent :=
  modifierMethods.str e k (formatTimestamp t)

/-- Embeds `modifierMethods.duration` (src/go.mod). -/
def modifierMethods.duration (e : MockEvent) (k : String) (d : Int) : MockEvent :=
  modifierMethods.str e k (formatDuration d)

/-- Embeds `modifierMethods.int` (src/go.mod). -/
def modifierMethods.int (e : MockEvent) (k : String) (v : Int) : MockEvent :=
  let p := e.AddInt k v
  if p.2 then p.1 else p.1.AddField k (GoValue.vInt v)

/-- Embeds `modifierMethods.float32` (src/go.mod). -/
def modifierMethods.float32 (e : MockEvent) (k : String) (v : Nat) : MockEvent :=
  let p := e.AddFloat32 k v
  if p.2 then p.1 else p.1.AddField k (GoValue.vFloat32 v)

/-- Embeds `modifierMethods.Field` (src/go.mod): gate on the event's own
level, then type-switch to the most specific handler, with `AddField` as
the default.  The Go code mutates the event in place and returns an
`error`; here the (possibly updated) event is returned alongside the
optional error. -/
def modifierMethods.Field (e : MockEvent) (k : String) (v : GoValue) :
    MockEvent × Option FieldError :=
  if !Level.Enabled e.level then (e, some FieldError.ErrDisabled)
  else
    match v with
    | GoValue.vString s => (modifierMethods.str e k s, none)
    | GoValue.vBytes b => (modifierMethods.bytes e k b, none)
    | GoValue.vTime t => (modifierMethods.timestamp e k t, none)
    | GoValue.vDuration d => (modifierMethods.duration e k d, none)
    | GoValue.vInt n => (modifierMethods.int e k n, none)
    | GoValue.vFloat32 f => (modifierMethods.float32 e k f, none)
    | v => (e.AddField k v, none)

/-- Embeds `modifierMethods.Interface` (src/go.mod): gate, then a direct
`AddField`. -/
def modifierMethods.Interface (e : MockEvent) (k : String) (v : GoValue) :
    MockEvent × Option FieldError :=
  if !Level.Enabled e.level then (e, some FieldError.ErrDisabled)
  else (e.AddField k v, none)

/-- Embeds `modifierMethods.Err` (src/go.mod): gate, try `AddError`, fall
back to an `err` field. -/
def modifierMethods.Err (e : MockEvent) (err : String) : MockEvent × Option FieldError :=
  if !Level.Enabled e.level then (e, some FieldError.ErrDisabled)
  else
    let p := e.AddError err
    (if p.2 then p.1 else p.1.AddField "err" (GoValue.vErr err), none)

/-- Embeds `modifierMethods.Str` (src/go.mod). -/
def modifierMethods.Str (e : MockEvent) (k v : String) : MockEvent × Option FieldError :=
  if !Level.Enabled e.level then (e, some FieldError.ErrDisabled)
  else (modifierMethods.str e k v, none)

/-- Embeds `modifierMethods.Int` (src/go.mod). -/
def modifierMethods.Int (e : MockEvent) (k : String) (v : Int) : MockEvent × Option FieldError :=
  if !Level.Enabled e.level then (e, some FieldError.ErrDisabled)
  else (modifierMethods.int e k v, none)

/-- Embeds `modifierMethods.Float32` (src/go.mod). -/
def modifierMethods.Float32 (e : MockEvent) (k : String) (v : Nat) :
    MockEvent × Option FieldError :=
  if !Level.Enabled e.level then (e, some FieldError.ErrDisabled)
  else (modifierMethods.float32 e k v, none)

/-- The per-logger shared state referenced by every Builder (only the
configured level threshold is relevant to the claims; the writer is passed
explicitly where used, and the pool is recorded as an effect). -/
structure LoggerShared where
  level : Level
deriving DecidableEq, Repr

/-- Embeds `Builder` (src/go.mod): the in-flight event plus the shared
state back-reference.  A Go `*Builder` is `Option Builder`, `none` being
the nil pointer. -/
structure Builder where
  Event : MockEvent
  shared : Option LoggerShared
deriving DecidableEq, Repr

/-- Embeds `Builder.Field` (src/go.mod): guarded on a non-nil receiver and
shared state; the setter's error result is deliberately discarded. -/
def Builder.Field (b : Option Builder) (k : String) (v : GoValue) : Option Builder :=
  match b with
  | some bd =>
      if bd.shared.isSome then some { bd with Event := (modifierMethods.Field bd.Event k v).1 }
      else some bd
  | none => none

/-- Embeds `Builder.Interface` (src/go.mod). -/
def Builder.Interface (b : Option Builder) (k : String) (v : GoValue) : Option Builder :=
  match b with
  | some bd =>
      if bd.shared.isSome then some { bd with Event := (modifierMethods.Interface bd.Event k v).1 }
      else some bd
  | none => none

/-- Embeds `Builder.Err` (src/go.mod). -/
def Builder.Err (b : Option Builder) (err : String) : Option Builder :=
  match b with
  | some bd =>
      if bd.shared.isSome then some { bd with Event := (modifierMethods.Err bd.Event err).1 }
      else some bd
  | none => none

/-- Embeds `Builder.Str` (src/go.mod). -/
def Builder.Str (b : Option Builder) (k v : String) : Option Builder :=
  match b with
  | some bd =>
      if bd.shared.isSome then some { bd with Event := (modifierMethods.Str bd.Event k v).1 }
      else some bd
  | none => none

/-- Embeds `Builder.Int` (src/go.mod). -/
def Builder.Int (b : Option Builder) (k : String) (v : Int) : Option Builder :=
  match b with
  | some bd =>
      if bd.shared.isSome then some { bd with Event := (modifierMethods.Int bd.Event k v).1 }
      else some bd
  | none => none

/-- Embeds `Builder.Float32` (src/go.mod). -/
def Builder.Float32 (b : Option Builder) (k : String) (v : Nat) : Option Builder :=
  match b with
  | some bd =>
      if bd.shared.isSome then some { bd with Event := (modifierMethods.Float32 bd.Event k v).1 }
      else some bd
  | none => none

/-- Embeds `Context` (src/go.mod): the deferred modifier closures and the
owning logger (an opaque identity token; `none` is a nil logger). -/
structure Context where
  Modifiers : List (MockEvent → MockEvent × Option FieldError)
  logger : Option Nat

/-- Embeds `Context.Logger` (src/go.mod). -/
def Context.Logger (c : Option Context) : Option Nat :=
  match c with
  | none => none
  | some ctx => ctx.logger

/-- Embeds `Context.add` (src/go.mod). -/
def Context.add (ctx : Context) (fn : MockEvent → MockEvent × Option FieldError) : Context :=
  { ctx with Modifiers := ctx.Modifiers ++ [fn] }

/-- Embeds `Context.Field` (src/go.mod): guarded on a non-nil receiver and
logger; appends a closure over the dispatcher. -/
def Context.Field (c : Option Context) (k : String) (v : GoValue) : Option Context :=
  match c with
  | some ctx =>
      if ctx.logger.isSome then some (ctx.add (fun e => modifierMethods.Field e k v))
      else some ctx
  | none => none

/-- Embeds `Context.Interface` (src/go.mod). -/
def Context.Interface (c : Option Context) (k : String) (v : GoValue) : Option Context :=
  match c with
  | some ctx =>
      if ctx.logger.isSome then some (ctx.add (fun e => modifierMethods.Interface e k v))
      else some ctx
  | none => none

/-- Embeds `Context.Err` (src/go.mod). -/
def Context.Err (c : Option Context) (err : String) : Option Context :=
  match c with
  | some ctx =>
      if ctx.logger.isSome then some (ctx.add (fun e => modifierMethods.Err e err))
      else some ctx
  | none => none

/-- Embeds `Context.Str` (src/go.mod). -/
def Context.Str (c : Option Context) (k v : String) : Option Context :=
  match c with
  | some ctx =>
      if ctx.logger.isSome then some (ctx.add (fun e => modifierMethods.Str e k v))
      else some ctx
  | none => none

/-- Embeds `Context.Int` (src/go.mod). -/
def Context.Int (c : Option Context) (k : String) (v : Int) : Option Context :=
  match c with
  | some ctx =>
      if ctx.logger.isSome then some (ctx.add (fun e => modifierMethods.Int e k v))
      else some ctx
  | none => none

/-- Embeds `Context.Float32` (src/go.mod). -/
def Context.Float32 (c : Option Context) (k : String) (v : Nat) : Option Context :=
  match c with
  | some ctx =>
      if ctx.logger.isSome then some (ctx.add (fun e => modifierMethods.Float32 e k v))
      else some ctx
  | none => none

/-- The observable outcome of one terminal `Log`/`Logf`/`LogFunc` call:
whether the Builder was put back into the shared pool, the events flushed
to the writer, and whether the call panicked (a nil `shared` dereference
while flushing). -/
structure LogResult where
  released : Bool
  written : List MockEvent
  panicked : Bool
deriving DecidableEq, Repr

/-- The event after the message step of `Builder.log` (src/go.mod): try
`AddMessage`, fall back to a generic `msg` field. -/
def appliedMessage (e : MockEvent) (msg : String) : MockEvent :=
  let p := e.AddMessage msg
  if p.2 then p.1 else p.1.AddField "msg" (GoValue.vString msg)

/-- Embeds `Builder.log` (src/go.mod).  `werr` is the external writer's
error result; `Write`'s return value is bound and dropped, exactly as the
source discards it.  With a nil `shared` the writer dereference panics
before anything is flushed. -/
def Builder.logMsg (werr : MockEvent → Option String) (bd : Builder) (msg : String) :
    List MockEvent × Bool :=
  let e := appliedMessage bd.Event msg
  match bd.shared with
  | some _ =>
      let _discarded := werr e
      ([e], false)
  | none => ([], true)

/-- Embeds `Builder.Log` (src/go.mod): no-op on nil; otherwise the deferred
`release` puts the Builder back iff `shared` is non-nil (running even if
the body panics), and the message/flush step runs only when the event's
level is enabled. -/
def Builder.Log (werr : MockEvent → Option String) (b : Option Builder) (msg : String) :
    LogResult :=
  match b with
  | none => ⟨false, [], false⟩
  | some bd =>
      let released := bd.shared.isSome
      if Level.Enabled bd.Event.level then
        let r := Builder.logMsg werr bd msg
        ⟨released, r.1, r.2⟩
      else ⟨released, [], false⟩

/-- Embeds `Builder.Logf` (src/go.mod): as `Log`, with the message produced
by `fmt.Sprintf`, abstracted as the `sprintf` parameter. -/
def Builder.Logf (sprintf : String → List GoValue → String)
    (werr : MockEvent → Option String) (b : Option Builder) (format : String)
    (args : List GoValue) : LogResult :=
  match b with
  | none => ⟨false, [], false⟩
  | some bd =>
      let released := bd.shared.isSome
      if Level.Enabled bd.Event.level then
        let r := Builder.logMsg werr bd (sprintf format args)
        ⟨released, r.1, r.2⟩
      else ⟨released, [], false⟩

/-- Embeds `Builder.LogFunc` (src/go.mod): as `Log`, with the message
produced by calling `fn` (only in the enabled branch). -/
def Builder.LogFunc (werr : MockEvent → Option String) (b : Option Builder)
    (fn : Unit → String) : LogResult :=
  match b with
  | none => ⟨false, [], false⟩
  | some bd =>
      let released := bd.shared.isSome
      if Level.Enabled bd.Event.level then
        let r := Builder.logMsg werr bd (fn ())
        ⟨released, r.1, r.2⟩
      else ⟨released, [], false⟩

/-- The observable outcome of `Builder.Call`: the returned builder, the
invocations of the callback (tokens paired with the builder argument
passed), and whether the call panicked (calling a nil function). -/
structure BCallResult where
  ret : Option Builder
  invoked : List (Nat × Option Builder)
  panicked : Bool
deriving DecidableEq, Repr

/-- Embeds `Builder.Call` (src/go.mod): `fn(x); return x` with no guard on
the receiver or on `fn` — a nil `fn` is a nil-function call, which
panics; a non-nil `fn` is invoked even when the receiver is nil. -/
def Builder.Call (b : Option Builder) (fn : Option Nat) : BCallResult :=
  match fn with
  | some f => ⟨b, [(f, b)], false⟩
  | none => ⟨b, [], true⟩

/-- Modelled from the spec: the tri-state of the ConditionalBuilder
protocol (§4.2, §9; conditionalbuilder.go is not under src/), as a tagged
sum over the same underlying Builder. -/
inductive CBState where
  | enabled
  | disabled
  | terminated
deriving DecidableEq, Repr

/-- Modelled from the spec: a ConditionalBuilder is one of three
reinterpretations of the same underlying Builder (§3, §4.2), so it is a
state tag plus the wrapped (possibly nil) Builder. -/
structure ConditionalBuilder where
  state : CBState
  builder : Option Builder
deriving DecidableEq, Repr

/-- Modelled from the spec: `Enabled()` is true only in the enabled state
(§4.2; conditionalbuilder.go is not under src/). -/
def ConditionalBuilder.Enabled (c : ConditionalBuilder) : Bool :=
  decide (c.state = CBState.enabled)

/-- Modelled from the spec: `Builder()` returns the underlying Builder in
every state (§4.2; conditionalbuilder.go is not under src/). -/
def ConditionalBuilder.Builder (c : ConditionalBuilder) : Option Logiface.Builder :=
  c.builder

/-- Modelled from the spec: `Else()` — enabled becomes terminated,
disabled becomes enabled, terminated returns itself unchanged (§4.2;
conditionalbuilder.go is not under src/). -/
def ConditionalBuilder.Else (c : ConditionalBuilder) : ConditionalBuilder :=
  match c.state with
  | CBState.enabled => ⟨CBState.terminated, c.builder⟩
  | CBState.disabled => ⟨CBState.enabled, c.builder⟩
  | CBState.terminated => c

/-- Modelled from the spec: `Call(fn)` invokes `fn` with the underlying
Builder only in the enabled state and only if `fn` is non-nil (§4.2;
conditionalbuilder.go is not under src/).  Per the in-src test
`testEnabledBuilder` (src/conditionalbuilder_test.go:88), the enabled-state
`Call` additionally does not invoke `fn` when the underlying Builder is
nil (the test requires zero invocations for a nil Builder).  Returns the
receiver plus the invocation record (callback token, Builder argument). -/
def ConditionalBuilder.Call (c : ConditionalBuilder) (fn : Option Nat) :
    ConditionalBuilder × List (Nat × Option Logiface.Builder) :=
  match c.state, fn, c.builder with
  | CBState.enabled, some f, some bd => (c, [(f, some bd)])
  | _, _, _ => (c, [])

/-- Modelled from the spec: `If(bool)` — a nil Builder yields a disabled
wrapper regardless of the condition (§4.2; conditionalbuilder.go is not
under src/; pinned by `TestBuilder_If` and `TestBuilder_If_nil`). -/
def Builder.If (b : Option Builder) (cond : Bool) : ConditionalBuilder :=
  match b with
  | none => ⟨CBState.disabled, none⟩
  | some bd => if cond then ⟨CBState.enabled, some bd⟩ else ⟨CBState.disabled, some bd⟩

/-- Modelled from the spec: `IfFunc(func() bool)` — a nil predicate or a
nil Builder yields a disabled wrapper (§4.2; conditionalbuilder.go is not
under src/; pinned by `TestBuilder_IfFunc` and `TestBuilder_IfFunc_nil`). -/
def Builder.IfFunc (b : Option Builder) (fn : Option (Unit → Bool)) : ConditionalBuilder :=
  match b, fn with
  | none, _ => ⟨CBState.disabled, none⟩
  | some bd, none => ⟨CBState.disabled, some bd⟩
  | some bd, some f =>
      if f () then ⟨CBState.enabled, some bd⟩ else ⟨CBState.disabled, some bd⟩

/-- Modelled from the spec: `IfLevel(Level)` — enabled iff the logger's
configured threshold satisfies the requested level, i.e. the requested
level is not the disabled sentinel and `threshold ≥ requested` (§3, §4.2;
conditionalbuilder.go is not under src/; pinned by `TestBuilder_IfLevel`,
which iterates thresholds Disabled..Trace+1 and requires enabled exactly
when `loggerLevel ≥ conditionLevel`).  A nil Builder or nil shared state
yields a disabled wrapper. -/
def Builder.IfLevel (b : Option Builder) (l : Level) : ConditionalBuilder :=
  match b with
  | none => ⟨CBState.disabled, none⟩
  | some bd =>
      match bd.shared with
      | some s =>
          if Level.Enabled l && decide (l ≤ s.level) then ⟨CBState.enabled, some bd⟩
          else ⟨CBState.disabled, some bd⟩
      | none => ⟨CBState.disabled, some bd⟩

/-- Modelled from the spec: `IfEmerg` is `IfLevel` at the Emergency
constant (§4.2). -/
def Builder.IfEmerg (b : Option Builder) : ConditionalBuilder := Builder.IfLevel b LevelEmergency

/-- Modelled from the spec: `IfAlert` is `IfLevel` at the Alert constant
(§4.2). -/
def Builder.IfAlert (b : Option Builder) : ConditionalBuilder := Builder.IfLevel b LevelAlert

/-- Modelled from the spec: `IfCrit` is `IfLevel` at the Critical constant
(§4.2). -/
def Builder.IfCrit (b : Option Builder) : ConditionalBuilder := Builder.IfLevel b LevelCritical

/-- Modelled from the spec: `IfErr` is `IfLevel` at the Error constant
(§4.2). -/
def Builder.IfErr (b : Option Builder) : ConditionalBuilder := Builder.IfLevel b LevelError

/-- Modelled from the spec: `IfWarning` is `IfLevel` at the Warning
constant (§4.2). -/
def Builder.IfWarning (b : Option Builder) : ConditionalBuilder := Builder.IfLevel b LevelWarning

/-- Modelled from the spec: `IfNotice` is `IfLevel` at the Notice constant
(§4.2). -/
def Builder.IfNotice (b : Option Builder) : ConditionalBuilder := Builder.IfLevel b LevelNotice

/-- Modelled from the spec: `IfInfo` is `IfLevel` at the Informational
constant (§4.2). -/
def Builder.IfInfo (b : Option Builder) : ConditionalBuilder := Builder.IfLevel b LevelInformational

/-- Modelled from the spec: `IfDebug` is `IfLevel` at the Debug constant
(§4.2). -/
def Builder.IfDebug (b : Option Builder) : ConditionalBuilder := Builder.IfLevel b LevelDebug

/-- Modelled from the spec: `IfTrace` is `IfLevel` at the Trace constant
(§4.2). -/
def Builder.IfTrace (b : Option Builder) : ConditionalBuilder := Builder.IfLevel b LevelTrace

/-- One `If*(...).Call(f).Else().Call(g)` chain starting from the wrapper
`c0`, returning the invocation record of both `Call` steps in order. -/
def runIfChain (c0 : ConditionalBuilder) (f g : Option Nat) :
    List (Nat × Option Builder) :=
  let r1 := c0.Call f
  let c1 := r1.1.Else
  let r2 := c1.Call g
  r1.2 ++ r2.2

/-- The kind of a sub-builder cell target (`*ArrayBuilder` vs
`*ObjectBuilder`).  The two kinds behave identically in the navigation
code under verification (the two branches of `Chain.As` perform the same
steps), differing only in which `Cur*` accessor matches. -/
inductive BKind where
  | arr
  | obj
deriving DecidableEq, Repr

/-- A value a Chain cell's `b` slot ("current") can hold: the root parent
itself (right after `newChainParent`), or an array/object sub-builder
identified by id.  These are the `Parent` values arising in the chain
flows of the claims; the root parent is modelled as enabled (the claims'
scenarios start from an enabled parent). -/
inductive CurVal (P : Type) where
  | root (p : P)
  | bld (bid : Nat)
deriving DecidableEq, Repr

/-- A chain cell (`refPoolItem`): slot `a` holds the owning root parent
(`none` when cleared), slot `b` the current target (`none` when
terminated or cleared). -/
structure CellData (P : Type) where
  a : Option P
  b : Option (CurVal P)
deriving DecidableEq, Repr

/-- An array/object sub-builder: its kind, and the chain cell that is its
parent `p`.  (In every chain flow of the claims the sub-builder's parent
is a Chain cell; sub-builders under non-chain parents never reach
`Chain.As`.) -/
structure BuilderRec where
  kind : BKind
  parent : Nat
deriving DecidableEq, Repr

/-- The explicit state of the chain machinery: the cell store and free-list
pool effects, the live sub-builders, the DPanic reports, and the values
attached ("written") into parents by closing sub-builders.  Pool `Get` is
modelled as allocating a fresh id; `pooled` records every `refPoolPut` in
order, so "released exactly once" is visible as list membership. -/
structure ChainSt (P : Type) where
  cells : Nat → CellData P
  nextCell : Nat
  builders : Nat → Option BuilderRec
  nextBldr : Nat
  pooled : List Nat
  dpanics : List String
  writes : List (Option (CurVal P) × String × Nat)

/-- The empty chain state. -/
def ChainSt.init (P : Type) : ChainSt P :=
  ⟨fun _ => ⟨none, none⟩, 0, fun _ => none, 0, [], [], []⟩

/-- `refPoolGet`: acquire a cell (fresh id; both slots clear). -/
def refPoolGet (st : ChainSt P) : Nat × ChainSt P :=
  (st.nextCell, { st with nextCell := st.nextCell + 1 })

/-- `refPoolPut`: clear both slots and return the cell to the pool
(modelled from the spec, §3: both slots are cleared before the cell
re-enters the pool; pool.go is not under src/). -/
def refPoolPut (st : ChainSt P) (id : Nat) : ChainSt P :=
  { st with
    cells := fun j => if j = id then ⟨none, none⟩ else st.cells j
    pooled := st.pooled ++ [id] }

/-- Embeds `newChain` (src/chain.go): acquire a cell, set `a` to the owning
parent and `b` to the current target. -/
def newChain (parent : P) (current : CurVal P) (st : ChainSt P) : Nat × ChainSt P :=
  let g := refPoolGet st
  (g.1,
    { g.2 with
      cells := fun j => if j = g.1 then ⟨some parent, some current⟩ else g.2.cells j })

/-- Embeds `newChainParent` (src/chain.go): owner and current are both the
parent itself. -/
def newChainParent (p : P) (st : ChainSt P) : Nat × ChainSt P :=
  newChain p (CurVal.root p) st

/-- The `Enabled()` walk of a current target: a sub-builder forwards to
its parent cell's current target (fuelled; the walk shortens toward the
root in every reachable state).  Root parents are modelled as enabled. -/
def curEnabled (fuel : Nat) (st : ChainSt P) : CurVal P → Bool
  | CurVal.root _ => true
  | CurVal.bld bid =>
      match fuel with
      | 0 => false
      | f + 1 =>
          match st.builders bid with
          | some br =>
              match (st.cells br.parent).b with
              | some c => curEnabled f st c
              | none => false
          | none => false

/-- The `Root()` walk of a current target, mirroring `curEnabled`; the
root parent's `Logger` is identified by the parent itself. -/
def curRoot (fuel : Nat) (st : ChainSt P) : CurVal P → Option P
  | CurVal.root p => some p
  | CurVal.bld bid =>
      match fuel with
      | 0 => none
      | f + 1 =>
          match st.builders bid with
          | some br =>
              match (st.cells br.parent).b with
              | some c => curRoot f st c
              | none => none
          | none => none

/-- Fuel that dominates the depth of any reachable parent walk. -/
def chainFuel (st : ChainSt P) : Nat := st.nextBldr + 1

/-- Embeds `Chain.current` (src/chain.go): nil receiver yields nil; the `b`
slot otherwise (the failed type assertion for a non-Parent `b` is the
`none` case). -/
def Chain.current (x : Option Nat) (st : ChainSt P) : Option (CurVal P) :=
  match x with
  | none => none
  | some id => (st.cells id).b

/-- Embeds `Chain.Enabled` (src/chain.go): the current target's enabled
state, or false when there is none. -/
def Chain.Enabled (x : Option Nat) (st : ChainSt P) : Bool :=
  match Chain.current x st with
  | some c => curEnabled (chainFuel st) st c
  | none => false

/-- Embeds `Chain.Root` (src/chain.go): the current target's root logger,
or nil when there is none. -/
def Chain.Root (x : Option Nat) (st : ChainSt P) : Option P :=
  match Chain.current x st with
  | some c => curRoot (chainFuel st) st c
  | none => none

/-- Modelled from the spec: the `Array`/`ArrayWithKey`/`Object`/
`ObjectWithKey` constructors (§4.5; arraybuilder.go and objectbuilder.go
are not under src/): when the parent is enabled, a new sub-builder of the
given kind is created under the parent cell; otherwise nil.  (The
sub-builder object's own pooling is outside the verified claims.) -/
def newBuilder (kind : BKind) (parentCell : Nat) (st : ChainSt P) :
    Option Nat × ChainSt P :=
  if Chain.Enabled (some parentCell) st then
    (some st.nextBldr,
      { st with
        builders := fun j => if j = st.nextBldr then some ⟨kind, parentCell⟩ else st.builders j
        nextBldr := st.nextBldr + 1 })
  else (none, st)

/-- Embeds `ArrayBuilder.Array` / `ObjectBuilder.Object` etc. nesting
(src/chain.go): when the sub-builder is enabled, its chain parent
allocates a new cell via `newChain` whose owner is the old cell's `a` and
whose current is the sub-builder being nested under, and the new
sub-builder is created under that new cell. -/
def builderNest (kind : BKind) (bid : Nat) (st : ChainSt P) : Option Nat × ChainSt P :=
  if curEnabled (chainFuel st) st (CurVal.bld bid) then
    match st.builders bid with
    | some br =>
        match (st.cells br.parent).a with
        | some rootp =>
            let nc := newChain rootp (CurVal.bld bid) st
            newBuilder kind nc.1 nc.2
        | none => (none, st)
    | none => (none, st)
  else (none, st)

/-- Modelled from the spec: the sub-builder `As(key)`/`as(key)` step
(§4.5; arraybuilder.go and objectbuilder.go are not under src/): the
closing sub-builder attaches its built value into its own parent under
`key` (the parent cell forwards the write to its current target) and
returns that parent — exactly the value `Chain.As` receives from
`current.as(key)`, and the value `b.As(key).End()` call sites navigate
with. -/
def builderAs (bid : Nat) (key : String) (st : ChainSt P) : Option Nat × ChainSt P :=
  match st.builders bid with
  | some br =>
      (some br.parent,
        { st with writes := st.writes ++ [((st.cells br.parent).b, key, bid)] })
  | none => (none, st)

/-- Replace the `b` slot of cell `id` (the `Chain.setCurrent` helper of
src/chain.go). -/
def setCur (st : ChainSt P) (id : Nat) (v : Option (CurVal P)) : ChainSt P :=
  { st with cells := fun j => if j = id then ⟨(st.cells id).a, v⟩ else st.cells j }

/-- The diagnostic issued when `Chain.As` terminates the cell. -/
def chainAsFailMsg : String := "logiface: chain as failed: called on invalid or terminated parent"

/-- Embeds `Chain.As` (src/chain.go).  With no current target it is a
no-op.  With a sub-builder current, `current.as(key)` closes it into its
parent and returns that parent cell; if it is a chain with the same owner
slot, the receiver advances to that cell's current and the cell is
returned to the pool, else the receiver's current becomes nil.  With any
other current (the default branch) the current becomes nil.  If the
current ended up nil, the misuse is reported via the DPanic policy —
through `x.Root()`, which at that point is already nil, so the report
targets a nil logger. -/
def Chain.As {P : Type} [DecidableEq P] (x : Option Nat) (key : String)
    (st : ChainSt P) : ChainSt P :=
  match x with
  | none => st
  | some xid =>
      match (st.cells xid).b with
      | none => st
      | some cur =>
          let st1 :=
            match cur with
            | CurVal.bld bid =>
                let r := builderAs bid key st
                match r.1 with
                | some pc =>
                    if (r.2.cells pc).a = (r.2.cells xid).a then
                      refPoolPut (setCur r.2 xid (r.2.cells pc).b) pc
                    else setCur r.2 xid none
                | none => setCur r.2 xid none
            | CurVal.root _ => setCur st xid none
          if (st1.cells xid).b = none then
            { st1 with dpanics := st1.dpanics ++ [chainAsFailMsg] }
          else st1

/-- Embeds `Chain.Add` (src/chain.go): `As` with the empty key. -/
def Chain.Add {P : Type} [DecidableEq P] (x : Option Nat) (st : ChainSt P) : ChainSt P :=
  Chain.As x "" st

/-- Embeds `Chain.End` (src/chain.go): a nil receiver yields the zero
value; otherwise the owner slot (zero value when cleared) is returned and
the cell is unconditionally returned to the pool. -/
def Chain.End [Inhabited P] (x : Option Nat) (st : ChainSt P) : P × ChainSt P :=
  match x with
  | none => (default, st)
  | some id => (((st.cells id).a).getD default, refPoolPut st id)

/-- The diagnostic issued by `Chain.CurArray` on a non-array current. -/
def curArrayFailMsg : String := "logiface: cannot access a non-array as an array"

/-- The diagnostic issued by `Chain.CurObject` on a non-object current. -/
def curObjectFailMsg : String := "logiface: cannot access a non-object as an object"

/-- Embeds `Chain.CurArray` (src/chain.go): when enabled with a current
target, return it if it is an array sub-builder, else DPanic and return
nil. -/
def Chain.CurArray (x : Option Nat) (st : ChainSt P) : Option Nat × ChainSt P :=
  if Chain.Enabled x st then
    match Chain.current x st with
    | some (CurVal.bld bid) =>
        match st.builders bid with
        | some br =>
            if br.kind = BKind.arr then (some bid, st)
            else (none, { st with dpanics := st.dpanics ++ [curArrayFailMsg] })
        | none => (none, { st with dpanics := st.dpanics ++ [curArrayFailMsg] })
    | some (CurVal.root _) => (none, { st with dpanics := st.dpanics ++ [curArrayFailMsg] })
    | none => (none, st)
  else (none, st)

/-- Embeds `Chain.CurObject` (src/chain.go), dually. -/
def Chain.CurObject (x : Option Nat) (st : ChainSt P) : Option Nat × ChainSt P :=
  if Chain.Enabled x st then
    match Chain.current x st with
    | some (CurVal.bld bid) =>
        match st.builders bid with
        | some br =>
            if br.kind = BKind.obj then (some bid, st)
            else (none, { st with dpanics := st.dpanics ++ [curObjectFailMsg] })
        | none => (none, { st with dpanics := st.dpanics ++ [curObjectFailMsg] })
    | some (CurVal.root _) => (none, { st with dpanics := st.dpanics ++ [curObjectFailMsg] })
    | none => (none, st)
  else (none, st)

/-- Embeds `Chain.Array` (src/chain.go): when enabled, open an array
sub-builder under this same cell; otherwise nil. -/
def Chain.Array (x : Option Nat) (st : ChainSt P) : Option Nat × ChainSt P :=
  if Chain.Enabled x st then
    match x with
    | some xid => newBuilder BKind.arr xid st
    | none => (none, st)
  else (none, st)

/-- Embeds `Chain.Object` (src/chain.go), dually. -/
def Chain.Object (x : Option Nat) (st : ChainSt P) : Option Nat × ChainSt P :=
  if Chain.Enabled x st then
    match x with
    | some xid => newBuilder BKind.obj xid st
    | none => (none, st)
  else (none, st)

/-- Modelled from the spec: `Builder.Enabled` (§4.4 — Builder methods are
no-ops when the Builder or its shared state is nil, and level-disabled
events are filtered; the method itself is not under src/). -/
def Builder.Enabled (b : Option Builder) : Bool :=
  match b with
  | none => false
  | some bd => bd.shared.isSome && Level.Enabled bd.Event.level

/-- Embeds `Builder.Array` (src/chain.go): when enabled, a chain cell over
the Builder is acquired and an array sub-builder opened on it; otherwise
nil.  The chain state is threaded explicitly; the Go receiver is the
root-parent value stored in the cell. -/
def Builder.Array (b : Option Builder) (st : ChainSt Builder) :
    Option Nat × ChainSt Builder :=
  match b with
  | some bd =>
      if Builder.Enabled (some bd) then
        let c := newChainParent bd st
        newBuilder BKind.arr c.1 c.2
      else (none, st)
  | none => (none, st)

/-- Embeds `Builder.Object` (src/chain.go), dually. -/
def Builder.Object (b : Option Builder) (st : ChainSt Builder) :
    Option Nat × ChainSt Builder :=
  match b with
  | some bd =>
      if Builder.Enabled (some bd) then
        let c := newChainParent bd st
        newBuilder BKind.obj c.1 c.2
      else (none, st)
  | none => (none, st)

/-- Modelled from the spec: `Context.Enabled` (§4.4 — Context methods are
no-ops when the Context or its owning logger is nil; the method itself is
not under src/). -/
def Context.Enabled (c : Option Context) : Bool :=
  match c with
  | none => false
  | some ctx => ctx.logger.isSome

/-- Embeds `Context.Array` (src/chain.go): as `Builder.Array`, over the
Context's logger identity. -/
def Context.Array (c : Option Context) (st : ChainSt Nat) : Option Nat × ChainSt Nat :=
  match c with
  | some ctx =>
      match ctx.logger with
      | some lg =>
          let cc := newChainParent lg st
          newBuilder BKind.arr cc.1 cc.2
      | none => (none, st)
  | none => (none, st)

/-- Embeds `Context.Object` (src/chain.go), dually. -/
def Context.Object (c : Option Context) (st : ChainSt Nat) : Option Nat × ChainSt Nat :=
  match c with
  | some ctx =>
      match ctx.logger with
      | some lg =>
          let cc := newChainParent lg st
          newBuilder BKind.obj cc.1 cc.2
      | none => (none, st)
  | none => (none, st)

/-- Open the remaining nested scopes: from sub-builder `bid`, nest one new
scope per kind in `kinds`, returning the innermost sub-builder. -/
def openRest {P : Type} [DecidableEq P] (bid : Nat) (kinds : List BKind) (st : ChainSt P) :
    Option Nat × ChainSt P :=
  match kinds with
  | [] => (some bid, st)
  | k :: rest =>
      match builderNest k bid st with
      | (some b2, st2) => openRest b2 rest st2
      | (none, st2) => (none, st2)

/-- Close scopes on the navigator chain: one `Chain.As` per key. -/
def closeAll {P : Type} [DecidableEq P] (nav : Option Nat) (keys : List String) (st : ChainSt P) :
    ChainSt P :=
  match keys with
  | [] => st
  | k :: rest => closeAll nav rest (Chain.As nav k st)

/-- The full round trip of claim C5: from parent `p`, open `1 + ks.length`
nested scopes (`newChainParent`, a first sub-builder of kind `k0`, then
one nested sub-builder per kind in `ks`), then close them all in matching
order (the innermost sub-builder's `As` with `key0`, which yields the
navigator chain; then one `Chain.As` per key in `keyRest`) and `End`. -/
def scenario {P : Type} [DecidableEq P] [Inhabited P] (p : P) (k0 : BKind) (ks : List BKind)
    (key0 : String) (keyRest : List String) : P × ChainSt P :=
  let n0 := newChainParent p (ChainSt.init P)
  match newBuilder k0 n0.1 n0.2 with
  | (some bid0, st1) =>
      match openRest bid0 ks st1 with
      | (some bidN, st2) =>
          let cl := builderAs bidN key0 st2
          let st3 := closeAll cl.1 keyRest cl.2
          Chain.End cl.1 st3
      | (none, st2) => (default, st2)
  | (none, st1) => (default, st1)

/-- A sample fully-handling enabled event for concrete witnesses. -/
def wEvent : MockEvent := ⟨LevelInformational, true, true, true, true, true, none, none, []⟩

/-- A sample event whose level gate is disabled. -/
def wDisabledEvent : MockEvent := ⟨LevelDisabled, true, true, true, true, true, none, none, []⟩

/-- A sample shared logger state at the informational threshold. -/
def wShared : LoggerShared := ⟨LevelInformational⟩

/-- A sample live Builder for concrete witnesses. -/
def wBuilder : Builder := ⟨wEvent, some wShared⟩

/-- Claim C1: for every non-nil Builder whose shared state is configured
at threshold `T`, and every named level `L` (Emergency through Trace),
`IfLevel L` returns an enabled ConditionalBuilder (over the same Builder)
iff `T ≥ L`, and a disabled one otherwise; a threshold of `Disabled`
enables no level; and each named shorthand `IfEmerg`..`IfTrace` equals
`IfLevel` at the corresponding constant. -/
theorem claim_C1_ifLevel_threshold :
    (∀ (bd : Builder) (s : LoggerShared) (l : Level),
      bd.shared = some s → LevelEmergency ≤ l → l ≤ LevelTrace →
        (((Builder.IfLevel (some bd) l).state = CBState.enabled) ↔ l ≤ s.level)
        ∧ (((Builder.IfLevel (some bd) l).state = CBState.disabled) ↔ ¬l ≤ s.level)
        ∧ (Builder.IfLevel (some bd) l).builder = some bd
        ∧ (s.level = LevelDisabled → (Builder.IfLevel (some bd) l).state = CBState.disabled))
    ∧ (∀ b : Option Builder,
        Builder.IfEmerg b = Builder.IfLevel b LevelEmergency
        ∧ Builder.IfAlert b = Builder.IfLevel b LevelAlert
        ∧ Builder.IfCrit b = Builder.IfLevel b LevelCritical
        ∧ Builder.IfErr b = Builder.IfLevel b LevelError
        ∧ Builder.IfWarning b = Builder.IfLevel b LevelWarning
        ∧ Builder.IfNotice b = Builder.IfLevel b LevelNotice
        ∧ Builder.IfInfo b = Builder.IfLevel b LevelInformational
        ∧ Builder.IfDebug b = Builder.IfLevel b LevelDebug
        ∧ Builder.IfTrace b = Builder.IfLevel b LevelTrace) := by
  constructor
  · intro bd s l hs h0 h8
    have h0' : (0 : Int) ≤ l := by simpa [LevelEmergency] using h0
    have hl : Level.Enabled l = true := by
      simp [Level.Enabled, h0']
    by_cases hle : l ≤ s.level
    · refine ⟨by simp [Builder.IfLevel, hs, hl, hle], by simp [Builder.IfLevel, hs, hl, hle],
        by simp [Builder.IfLevel, hs, hl, hle], ?_⟩
      intro hdis
      exfalso
      rw [hdis] at hle
      have h1 : @LE.le Int _ (@id Int l) (-1) := hle
      have h2 : @LE.le Int _ 0 (@id Int l) := h0'
      omega
    · exact ⟨by simp [Builder.IfLevel, hs, hl, hle], by simp [Builder.IfLevel, hs, hl, hle],
        by simp [Builder.IfLevel, hs, hl, hle], fun _ => by simp [Builder.IfLevel, hs, hl, hle]⟩
  · intro b
    exact ⟨rfl, rfl, rfl, rfl, rfl, rfl, rfl, rfl, rfl⟩

/-- Witness for claim C1 at a concrete Builder (informational threshold,
requested level Warning). -/
theorem claim_C1_witness :
    (((Builder.IfLevel (some wBuilder) LevelWarning).state = CBState.enabled)
        ↔ LevelWarning ≤ wShared.level)
    ∧ (((Builder.IfLevel (some wBuilder) LevelWarning).state = CBState.disabled)
        ↔ ¬LevelWarning ≤ wShared.level)
    ∧ (Builder.IfLevel (some wBuilder) LevelWarning).builder = some wBuilder
    ∧ (wShared.level = LevelDisabled →
        (Builder.IfLevel (some wBuilder) LevelWarning).state = CBState.disabled) :=
  claim_C1_ifLevel_threshold.1 wBuilder wShared LevelWarning rfl (by decide) (by decide)

/-- Claim C2: in a single `If*(...).Call(f).Else().Call(g)` chain on a
non-nil Builder, exactly one of `f` and `g` is invoked (the "if" body
exactly when the wrapper starts enabled, the "else" body otherwise);
`Call` invokes its argument only in the enabled state and only if
non-nil; applying `Else` twice yields a terminated wrapper both times
(the doubled result is terminated and a further `Else` is a fixed
point), and a terminated wrapper never fires a body. -/
theorem claim_C2_tristate_chain :
    (∀ (bd : Builder) (s : CBState) (f g : Nat), s ≠ CBState.terminated →
        runIfChain ⟨s, some bd⟩ (some f) (some g)
          = [(if s = CBState.enabled then f else g, some bd)])
    ∧ (∀ (bd : Builder) (p : Bool),
        (Builder.If (some bd) p).state = (if p then CBState.enabled else CBState.disabled)
        ∧ (Builder.If (some bd) p).builder = some bd
        ∧ (Builder.If (some bd) p).state ≠ CBState.terminated)
    ∧ (∀ (c : ConditionalBuilder) (fn : Option Nat),
        (c.Call fn).2 ≠ [] → c.state = CBState.enabled ∧ fn ≠ none)
    ∧ (∀ c : ConditionalBuilder,
        (c.Else.Else).state = CBState.terminated ∧ c.Else.Else.Else = c.Else.Else)
    ∧ (∀ (c : ConditionalBuilder) (fn : Option Nat), c.state = CBState.terminated →
        c.Else = c ∧ (c.Call fn).2 = []) := by
  refine ⟨?_, ?_, ?_, ?_, ?_⟩
  · intro bd s f g hs
    cases s with
    | enabled => rfl
    | disabled => rfl
    | terminated => exact absurd rfl hs
  · intro bd p
    cases p <;> exact ⟨rfl, rfl, fun h => CBState.noConfusion h⟩
  · intro c fn h
    rcases c with ⟨s, b⟩
    cases s <;> cases fn <;> cases b <;>
      simp [ConditionalBuilder.Call] at h ⊢
  · intro c
    rcases c with ⟨s, b⟩
    cases s <;> exact ⟨rfl, rfl⟩
  · intro c fn h
    rcases c with ⟨s, b⟩
    cases s with
    | terminated => exact ⟨rfl, by cases fn <;> cases b <;> rfl⟩
    | enabled => exact CBState.noConfusion h
    | disabled => exact CBState.noConfusion h

/-- Witness for claim C2 at a concrete enabled chain on a live Builder:
the "if" body fires, the "else" body does not. -/
theorem claim_C2_witness :
    runIfChain ⟨CBState.enabled, some wBuilder⟩ (some 1) (some 2)
      = [(if CBState.enabled = CBState.enabled then 1 else 2, some wBuilder)] :=
  claim_C2_tristate_chain.1 wBuilder CBState.enabled 1 2 (by decide)

/-- Claim C3: `Log`, `Logf` and `LogFunc` are no-ops on a nil Builder; on
a non-nil Builder with live shared state they always release the Builder
to its pool, and only when the event's level is enabled do they add the
message (via `AddMessage`, else a generic `msg` field) and flush the event
to the writer; the writer's returned error is discarded (the result never
depends on it). -/
theorem claim_C3_log_lifecycle :
    (∀ (werr : MockEvent → Option String) (msg : String)
        (sprintf : String → List GoValue → String) (format : String)
        (args : List GoValue) (fn : Unit → String),
      Builder.Log werr none msg = ⟨false, [], false⟩
      ∧ Builder.Logf sprintf werr none format args = ⟨false, [], false⟩
      ∧ Builder.LogFunc werr none fn = ⟨false, [], false⟩)
    ∧ (∀ (werr : MockEvent → Option String) (bd : Builder) (s : LoggerShared)
        (msg : String) (sprintf : String → List GoValue → String) (format : String)
        (args : List GoValue) (fn : Unit → String), bd.shared = some s →
        ((Builder.Log werr (some bd) msg).released = true
          ∧ (Builder.Logf sprintf werr (some bd) format args).released = true
          ∧ (Builder.LogFunc werr (some bd) fn).released = true)
        ∧ (Level.Enabled bd.Event.level = false →
            (Builder.Log werr (some bd) msg).written = []
            ∧ (Builder.Logf sprintf werr (some bd) format args).written = []
            ∧ (Builder.LogFunc werr (some bd) fn).written = [])
        ∧ (Level.Enabled bd.Event.level = true →
            (Builder.Log werr (some bd) msg).written = [appliedMessage bd.Event msg]
            ∧ (Builder.Logf sprintf werr (some bd) format args).written
                = [appliedMessage bd.Event (sprintf format args)]
            ∧ (Builder.LogFunc werr (some bd) fn).written
                = [appliedMessage bd.Event (fn ())]
            ∧ (Builder.Log werr (some bd) msg).panicked = false))
    ∧ (∀ (e : MockEvent) (msg : String),
        (e.msgHandled = true → appliedMessage e msg = { e with msg := some msg })
        ∧ (e.msgHandled = false →
            appliedMessage e msg
              = { e with fields := e.fields ++ [("msg", GoValue.vString msg)] }))
    ∧ (∀ (w1 w2 : MockEvent → Option String) (b : Option Builder) (msg : String)
        (sprintf : String → List GoValue → String) (format : String)
        (args : List GoValue) (fn : Unit → String),
        Builder.Log w1 b msg = Builder.Log w2 b msg
        ∧ Builder.Logf sprintf w1 b format args = Builder.Logf sprintf w2 b format args
        ∧ Builder.LogFunc w1 b fn = Builder.LogFunc w2 b fn) := by
  refine ⟨fun _ _ _ _ _ _ => ⟨rfl, rfl, rfl⟩, ?_, ?_, ?_⟩
  · intro werr bd s msg sprintf format args fn hs
    refine ⟨⟨?_, ?_, ?_⟩, ?_, ?_⟩
    · simp [Builder.Log, hs]
      by_cases h : Level.Enabled bd.Event.level <;> simp [h]
    · simp [Builder.Logf, hs]
      by_cases h : Level.Enabled bd.Event.level <;> simp [h]
    · simp [Builder.LogFunc, hs]
      by_cases h : Level.Enabled bd.Event.level <;> simp [h]
    · intro hdis
      refine ⟨?_, ?_, ?_⟩ <;>
        simp [Builder.Log, Builder.Logf, Builder.LogFunc, hdis]
    · intro hen
      refine ⟨?_, ?_, ?_, ?_⟩ <;>
        simp [Builder.Log, Builder.Logf, Builder.LogFunc, Builder.logMsg, hen, hs]
  · intro e msg
    constructor
    · intro h
      simp [appliedMessage, MockEvent.AddMessage, h]
    · intro h
      simp [appliedMessage, MockEvent.AddMessage, MockEvent.AddField, h]
  · intro w1 w2 b msg sprintf format args fn
    exact ⟨rfl, rfl, rfl⟩

/-- Witness for claim C3 at a concrete live Builder with an enabled event
and a writer that reports an error (discarded). -/
theorem claim_C3_witness :
    ((Builder.Log (fun _ => some "boom") (some wBuilder) "hello").released = true
      ∧ (Builder.Logf (fun f _ => f) (fun _ => some "boom") (some wBuilder) "hello" []).released
          = true
      ∧ (Builder.LogFunc (fun _ => some "boom") (some wBuilder) (fun _ => "hello")).released
          = true)
    ∧ (Level.Enabled wBuilder.Event.level = false →
        (Builder.Log (fun _ => some "boom") (some wBuilder) "hello").written = []
        ∧ (Builder.Logf (fun f _ => f) (fun _ => some "boom") (some wBuilder) "hello" []).written
            = []
        ∧ (Builder.LogFunc (fun _ => some "boom") (some wBuilder) (fun _ => "hello")).written
            = [])
    ∧ (Level.Enabled wBuilder.Event.level = true →
        (Builder.Log (fun _ => some "boom") (some wBuilder) "hello").written
          = [appliedMessage wBuilder.Event "hello"]
        ∧ (Builder.Logf (fun f _ => f) (fun _ => some "boom") (some wBuilder) "hello" []).written
            = [appliedMessage wBuilder.Event ((fun (f : String) (_ : List GoValue) => f) "hello" [])]
        ∧ (Builder.LogFunc (fun _ => some "boom") (some wBuilder) (fun _ => "hello")).written
            = [appliedMessage wBuilder.Event ((fun (_ : Unit) => "hello") ())]
        ∧ (Builder.Log (fun _ => some "boom") (some wBuilder) "hello").panicked = false) :=
  claim_C3_log_lifecycle.2.1 (fun _ => some "boom") wBuilder wShared "hello"
    (fun f _ => f) "hello" [] (fun _ => "hello") rfl

/-- Claim C4: every typed field setter first checks the event's level;
when disabled it reports the `ErrDisabled` sentinel and performs no
mutation of the event, and the Builder/Context wrapper methods discard
that error, so a disabled field call is a silent no-op returning the
receiver with the event unchanged. -/
theorem claim_C4_disabled_setters :
    ∀ (e : MockEvent), Level.Enabled e.level = false →
      ∀ (k sv err : String) (v : GoValue) (iv : Int) (fv : Nat),
        (modifierMethods.Field e k v = (e, some FieldError.ErrDisabled)
          ∧ modifierMethods.Interface e k v = (e, some FieldError.ErrDisabled)
          ∧ modifierMethods.Err e err = (e, some FieldError.ErrDisabled)
          ∧ modifierMethods.Str e k sv = (e, some FieldError.ErrDisabled)
          ∧ modifierMethods.Int e k iv = (e, some FieldError.ErrDisabled)
          ∧ modifierMethods.Float32 e k fv = (e, some FieldError.ErrDisabled))
        ∧ (∀ sh : Option LoggerShared,
            Builder.Field (some ⟨e, sh⟩) k v = some ⟨e, sh⟩
            ∧ Builder.Interface (some ⟨e, sh⟩) k v = some ⟨e, sh⟩
            ∧ Builder.Err (some ⟨e, sh⟩) err = some ⟨e, sh⟩
            ∧ Builder.Str (some ⟨e, sh⟩) k sv = some ⟨e, sh⟩
            ∧ Builder.Int (some ⟨e, sh⟩) k iv = some ⟨e, sh⟩
            ∧ Builder.Float32 (some ⟨e, sh⟩) k fv = some ⟨e, sh⟩)
        ∧ (∀ ctx : Context, ctx.logger.isSome = true →
            Context.Field (some ctx) k v
              = some (ctx.add (fun ev => modifierMethods.Field ev k v))
            ∧ (ctx.add (fun ev => modifierMethods.Field ev k v)).Modifiers.getLast? =
                some (fun ev => modifierMethods.Field ev k v)
            ∧ (fun ev => modifierMethods.Field ev k v) e
                = (e, some FieldError.ErrDisabled)) := by
  intro e hdis k sv err v iv fv
  have hF : modifierMethods.Field e k v = (e, some FieldError.ErrDisabled) := by
    simp [modifierMethods.Field, hdis]
  refine ⟨⟨hF, ?_, ?_, ?_, ?_, ?_⟩, ?_, ?_⟩
  · simp [modifierMethods.Interface, hdis]
  · simp [modifierMethods.Err, hdis]
  · simp [modifierMethods.Str, hdis]
  · simp [modifierMethods.Int, hdis]
  · simp [modifierMethods.Float32, hdis]
  · intro sh
    rcases sh with _ | s <;>
      refine ⟨?_, ?_, ?_, ?_, ?_, ?_⟩ <;>
        simp [Builder.Field, Builder.Interface, Builder.Err, Builder.Str, Builder.Int,
          Builder.Float32, modifierMethods.Field, modifierMethods.Interface,
          modifierMethods.Err, modifierMethods.Str, modifierMethods.Int,
          modifierMethods.Float32, hdis]
  · intro ctx hlg
    exact ⟨by simp [Context.Field, hlg], by simp [Context.add], hF⟩

/-- Witness for claim C4 at a concrete disabled event. -/
theorem claim_C4_witness :
    (modifierMethods.Field wDisabledEvent "k" (GoValue.vInt 3)
        = (wDisabledEvent, some FieldError.ErrDisabled)
      ∧ modifierMethods.Interface wDisabledEvent "k" (GoValue.vInt 3)
        = (wDisabledEvent, some FieldError.ErrDisabled)
      ∧ modifierMethods.Err wDisabledEvent "e"
        = (wDisabledEvent, some FieldError.ErrDisabled)
      ∧ modifierMethods.Str wDisabledEvent "k" "s"
        = (wDisabledEvent, some FieldError.ErrDisabled)
      ∧ modifierMethods.Int wDisabledEvent "k" 4
        = (wDisabledEvent, some FieldError.ErrDisabled)
      ∧ modifierMethods.Float32 wDisabledEvent "k" 5
        = (wDisabledEvent, some FieldError.ErrDisabled))
    ∧ (∀ sh : Option LoggerShared,
        Builder.Field (some ⟨wDisabledEvent, sh⟩) "k" (GoValue.vInt 3)
          = some ⟨wDisabledEvent, sh⟩
        ∧ Builder.Interface (some ⟨wDisabledEvent, sh⟩) "k" (GoValue.vInt 3)
          = some ⟨wDisabledEvent, sh⟩
        ∧ Builder.Err (some ⟨wDisabledEvent, sh⟩) "e" = some ⟨wDisabledEvent, sh⟩
        ∧ Builder.Str (some ⟨wDisabledEvent, sh⟩) "k" "s" = some ⟨wDisabledEvent, sh⟩
        ∧ Builder.Int (some ⟨wDisabledEvent, sh⟩) "k" 4 = some ⟨wDisabledEvent, sh⟩
        ∧ Builder.Float32 (some ⟨wDisabledEvent, sh⟩) "k" 5 = some ⟨wDisabledEvent, sh⟩)
    ∧ (∀ ctx : Context, ctx.logger.isSome = true →
        Context.Field (some ctx) "k" (GoValue.vInt 3)
          = some (ctx.add (fun ev => modifierMethods.Field ev "k" (GoValue.vInt 3)))
        ∧ (ctx.add (fun ev => modifierMethods.Field ev "k" (GoValue.vInt 3))).Modifiers.getLast? =
            some (fun ev => modifierMethods.Field ev "k" (GoValue.vInt 3))
        ∧ (fun ev => modifierMethods.Field ev "k" (GoValue.vInt 3)) wDisabledEvent
            = (wDisabledEvent, some FieldError.ErrDisabled)) :=
  claim_C4_disabled_setters wDisabledEvent (by decide) "k" "s" "e" (GoValue.vInt 3) 4 5

/-- Counterexample to claim C7: `Builder.Call` (src/go.mod:56) is
unguarded — on a nil receiver it still invokes a non-nil `fn` (with the
nil Builder), so it is not a no-op, and with a nil `fn` it performs a
nil-function call, which panics.  Both contradict "returns without
panicking and behaves as a fully-disabled safe no-op" for "every public
method ... with any argument values". -/
theorem claim_C7_counterexample :
    (Builder.Call none (some 0)).invoked = [(0, none)]
    ∧ (Builder.Call none (some 0)).invoked ≠ []
    ∧ (Builder.Call none none).panicked = true :=
  ⟨rfl, by decide, rfl⟩

/-- Claim C7 as amended: every embedded public method on Builder, Context,
and ConditionalBuilder except `Builder.Call` — which unconditionally
invokes its argument, even on a nil receiver, and panics on a nil
function — tolerates a nil receiver, returning the fully-disabled
no-op value (the nil receiver itself, a disabled wrapper, nil, or the
unchanged state) without panicking and without invoking any callback. -/
theorem claim_C7_amended_nil_safety :
    (∀ (werr : MockEvent → Option String) (msg : String)
        (sprintf : String → List GoValue → String) (format : String)
        (args : List GoValue) (fnm : Unit → String),
      Builder.Log werr none msg = ⟨false, [], false⟩
      ∧ Builder.Logf sprintf werr none format args = ⟨false, [], false⟩
      ∧ Builder.LogFunc werr none fnm = ⟨false, [], false⟩)
    ∧ (∀ (k sv err : String) (v : GoValue) (iv : Int) (fv : Nat),
        Builder.Field none k v = none
        ∧ Builder.Interface none k v = none
        ∧ Builder.Err none err = none
        ∧ Builder.Str none k sv = none
        ∧ Builder.Int none k iv = none
        ∧ Builder.Float32 none k fv = none
        ∧ Context.Field none k v = none
        ∧ Context.Interface none k v = none
        ∧ Context.Err none err = none
        ∧ Context.Str none k sv = none
        ∧ Context.Int none k iv = none
        ∧ Context.Float32 none k fv = none)
    ∧ Context.Logger none = none
    ∧ Builder.Enabled none = false
    ∧ Context.Enabled none = false
    ∧ (∀ (cond : Bool) (fnb : Option (Unit → Bool)) (l : Level),
        Builder.If none cond = ⟨CBState.disabled, none⟩
        ∧ Builder.IfFunc none fnb = ⟨CBState.disabled, none⟩
        ∧ Builder.IfLevel none l = ⟨CBState.disabled, none⟩
        ∧ Builder.IfEmerg none = ⟨CBState.disabled, none⟩
        ∧ Builder.IfAlert none = ⟨CBState.disabled, none⟩
        ∧ Builder.IfCrit none = ⟨CBState.disabled, none⟩
        ∧ Builder.IfErr none = ⟨CBState.disabled, none⟩
        ∧ Builder.IfWarning none = ⟨CBState.disabled, none⟩
        ∧ Builder.IfNotice none = ⟨CBState.disabled, none⟩
        ∧ Builder.IfInfo none = ⟨CBState.disabled, none⟩
        ∧ Builder.IfDebug none = ⟨CBState.disabled, none⟩
        ∧ Builder.IfTrace none = ⟨CBState.disabled, none⟩)
    ∧ (∀ st : ChainSt Builder,
        Builder.Array none st = (none, st) ∧ Builder.Object none st = (none, st))
    ∧ (∀ st : ChainSt Nat,
        Context.Array none st = (none, st) ∧ Context.Object none st = (none, st))
    ∧ (∀ (s : CBState) (fn : Option Nat),
        ConditionalBuilder.Builder ⟨s, none⟩ = none
        ∧ (ConditionalBuilder.Else ⟨s, none⟩).builder = none
        ∧ ConditionalBuilder.Call ⟨s, none⟩ fn = (⟨s, none⟩, [])) := by
  refine ⟨fun _ _ _ _ _ _ => ⟨rfl, rfl, rfl⟩, fun _ _ _ _ _ _ =>
      ⟨rfl, rfl, rfl, rfl, rfl, rfl, rfl, rfl, rfl, rfl, rfl, rfl⟩,
    rfl, rfl, rfl, ?_, fun _ => ⟨rfl, rfl⟩, fun _ => ⟨rfl, rfl⟩, ?_⟩
  · intro cond fnb l
    refine ⟨?_, ?_, rfl, rfl, rfl, rfl, rfl, rfl, rfl, rfl, rfl, rfl⟩
    · cases cond <;> rfl
    · cases fnb <;> rfl
  · intro s fn
    refine ⟨rfl, ?_, ?_⟩
    · cases s <;> rfl
    · cases s <;> cases fn <;> rfl

/-- Counterexample to claim C8: in the enabled state, `Call` with a
non-nil function does not invoke it when the underlying Builder is nil,
while it does for a non-nil Builder — the wrapper around a nil Builder
does not behave identically (pinned by `testEnabledBuilder`,
src/conditionalbuilder_test.go:88, which requires zero invocations for a
nil Builder and exactly one otherwise). -/
theorem claim_C8_counterexample :
    (ConditionalBuilder.Call ⟨CBState.enabled, none⟩ (some 0)).2 = []
    ∧ (ConditionalBuilder.Call ⟨CBState.enabled, some wBuilder⟩ (some 0)).2
        = [(0, some wBuilder)]
    ∧ (ConditionalBuilder.Call ⟨CBState.enabled, none⟩ (some 0)).2
        ≠ (ConditionalBuilder.Call ⟨CBState.enabled, some wBuilder⟩ (some 0)).2.map
            (fun r => (r.1, (none : Option Builder))) :=
  ⟨rfl, rfl, by decide⟩

/-- Claim C8 as amended: in each of the three states, `Enabled`,
`Builder`, and `Else` behave identically for nil and non-nil underlying
Builders; `Call` returns the receiver in every state, never fires outside
the enabled state or on a nil function, and in the enabled state invokes
the supplied function with the underlying Builder exactly when that
Builder is non-nil (it is a no-op for a nil Builder). -/
theorem claim_C8_amended_nil_wrapper :
    ∀ (s : CBState) (b : Option Builder) (fn : Option Nat),
      ConditionalBuilder.Enabled ⟨s, b⟩ = ConditionalBuilder.Enabled ⟨s, none⟩
      ∧ ConditionalBuilder.Builder ⟨s, b⟩ = b
      ∧ (ConditionalBuilder.Else ⟨s, b⟩).state = (ConditionalBuilder.Else ⟨s, none⟩).state
      ∧ (ConditionalBuilder.Else ⟨s, b⟩).builder = b
      ∧ (ConditionalBuilder.Call ⟨s, b⟩ fn).1 = ⟨s, b⟩
      ∧ (s ≠ CBState.enabled → (ConditionalBuilder.Call ⟨s, b⟩ fn).2 = [])
      ∧ (ConditionalBuilder.Call ⟨s, b⟩ none).2 = []
      ∧ (∀ (f : Nat) (bd : Builder),
          (ConditionalBuilder.Call ⟨CBState.enabled, some bd⟩ (some f)).2 = [(f, some bd)])
      ∧ (∀ f : Nat, (ConditionalBuilder.Call ⟨CBState.enabled, none⟩ (some f)).2 = []) := by
  intro s b fn
  refine ⟨?_, rfl, ?_, ?_, ?_, ?_, ?_, fun _ _ => rfl, fun _ => rfl⟩
  · cases s <;> rfl
  · cases s <;> rfl
  · cases s <;> rfl
  · cases s <;> cases fn <;> cases b <;> rfl
  · intro hs
    cases s with
    | enabled => exact absurd rfl hs
    | disabled => cases fn <;> cases b <;> rfl
    | terminated => cases fn <;> cases b <;> rfl
  · cases s <;> cases b <;> rfl

/-- Witness for claim C8 (amended) at a concrete terminated wrapper over a
live Builder: `Call` does not fire. -/
theorem claim_C8_witness :
    (ConditionalBuilder.Call ⟨CBState.terminated, some wBuilder⟩ (some 3)).2 = [] :=
  (claim_C8_amended_nil_wrapper CBState.terminated (some wBuilder) (some 3)).2.2.2.2.2.1
    (by decide)

/-- `Chain.As` while the current target is the (non-builder) root parent:
the default branch nulls the current slot and the misuse is reported via
the DPanic policy. -/
theorem chainAs_root {P : Type} [DecidableEq P] (st : ChainSt P) (x : Nat) (key : String)
    (q : P) (h : (st.cells x).b = some (CurVal.root q)) :
    Chain.As (some x) key st =
      { st with
        cells := fun j => if j = x then ⟨(st.cells x).a, none⟩ else st.cells j
        dpanics := st.dpanics ++ [chainAsFailMsg] } := by
  simp [Chain.As, h, setCur]

/-- `Chain.As` with no current target is a complete no-op. -/
theorem chainAs_none {P : Type} [DecidableEq P] (st : ChainSt P) (x : Nat) (key : String)
    (h : (st.cells x).b = none) : Chain.As (some x) key st = st := by
  simp [Chain.As, h]

/-- Claim C6: if `Chain.As` (or `Add`) runs while the cell's current
target is neither an array nor an object sub-builder, the misuse is
reported through the DPanic policy and the cell's current slot becomes
nil, after which `Enabled` reports false and all further navigation on
the cell is a clean no-op (no nesting into stale state, no further
DPanic, nothing pooled). -/
theorem claim_C6_as_misuse :
    ∀ {P : Type} [DecidableEq P] (st : ChainSt P) (x : Nat) (key key2 : String) (q : P),
      (st.cells x).b = some (CurVal.root q) →
        ((Chain.As (some x) key st).cells x).b = none
        ∧ ((Chain.As (some x) key st).cells x).a = (st.cells x).a
        ∧ (Chain.As (some x) key st).dpanics = st.dpanics ++ [chainAsFailMsg]
        ∧ (Chain.As (some x) key st).pooled = st.pooled
        ∧ Chain.Enabled (some x) (Chain.As (some x) key st) = false
        ∧ Chain.As (some x) key2 (Chain.As (some x) key st) = Chain.As (some x) key st
        ∧ Chain.Add (some x) (Chain.As (some x) key st) = Chain.As (some x) key st
        ∧ Chain.Array (some x) (Chain.As (some x) key st) = (none, Chain.As (some x) key st)
        ∧ Chain.Object (some x) (Chain.As (some x) key st) = (none, Chain.As (some x) key st)
        ∧ Chain.CurArray (some x) (Chain.As (some x) key st) = (none, Chain.As (some x) key st)
        ∧ Chain.CurObject (some x) (Chain.As (some x) key st) = (none, Chain.As (some x) key st)
        ∧ Chain.Root (some x) (Chain.As (some x) key st) = none
        ∧ Chain.Add (some x) st = Chain.As (some x) "" st := by
  intro P _ st x key key2 q h
  rw [chainAs_root st x key q h]
  have hb : ((fun j => if j = x then (⟨(st.cells x).a, none⟩ : CellData P) else st.cells j) x).b
      = none := by simp
  refine ⟨by simp, by simp, rfl, rfl, ?_, ?_, ?_, ?_, ?_, ?_, ?_, ?_, rfl⟩
  · simp [Chain.Enabled, Chain.current]
  · exact chainAs_none _ x key2 hb
  · exact chainAs_none _ x "" hb
  · simp [Chain.Array, Chain.Enabled, Chain.current]
  · simp [Chain.Object, Chain.Enabled, Chain.current]
  · simp [Chain.CurArray, Chain.Enabled, Chain.current]
  · simp [Chain.CurObject, Chain.Enabled, Chain.current]
  · simp [Chain.Root, Chain.current]

/-- A concrete freshly-acquired chain cell over the root parent `5`. -/
def wChainSt : ChainSt Nat := (newChainParent (5 : Nat) (ChainSt.init Nat)).2

/-- The concrete cell after a misuse `As` (current was the root parent). -/
def wMisuseSt : ChainSt Nat := Chain.As (some 0) "k" wChainSt

/-- Witness for claim C6 at the concrete freshly-acquired cell. -/
theorem claim_C6_witness :
    ((Chain.As (some 0) "k" wChainSt).cells 0).b = none
    ∧ ((Chain.As (some 0) "k" wChainSt).cells 0).a = (wChainSt.cells 0).a
    ∧ (Chain.As (some 0) "k" wChainSt).dpanics = wChainSt.dpanics ++ [chainAsFailMsg]
    ∧ (Chain.As (some 0) "k" wChainSt).pooled = wChainSt.pooled
    ∧ Chain.Enabled (some 0) (Chain.As (some 0) "k" wChainSt) = false
    ∧ Chain.As (some 0) "k2" (Chain.As (some 0) "k" wChainSt) = Chain.As (some 0) "k" wChainSt
    ∧ Chain.Add (some 0) (Chain.As (some 0) "k" wChainSt) = Chain.As (some 0) "k" wChainSt
    ∧ Chain.Array (some 0) (Chain.As (some 0) "k" wChainSt)
        = (none, Chain.As (some 0) "k" wChainSt)
    ∧ Chain.Object (some 0) (Chain.As (some 0) "k" wChainSt)
        = (none, Chain.As (some 0) "k" wChainSt)
    ∧ Chain.CurArray (some 0) (Chain.As (some 0) "k" wChainSt)
        = (none, Chain.As (some 0) "k" wChainSt)
    ∧ Chain.CurObject (some 0) (Chain.As (some 0) "k" wChainSt)
        = (none, Chain.As (some 0) "k" wChainSt)
    ∧ Chain.Root (some 0) (Chain.As (some 0) "k" wChainSt) = none
    ∧ Chain.Add (some 0) wChainSt = Chain.As (some 0) "" wChainSt :=
  claim_C6_as_misuse wChainSt 0 "k" "k2" 5 rfl

/-- Counterexample to claim C10: after a terminating misuse the cell's
current slot no longer holds a Parent, yet `End` returns the stored owner
(`5`), not the zero-value parent. -/
theorem claim_C10_counterexample :
    (wMisuseSt.cells 0).b = none
    ∧ (Chain.End (some 0) wMisuseSt).1 = 5
    ∧ (Chain.End (some 0) wMisuseSt).1 ≠ (default : Nat) := by
  refine ⟨by decide, by decide, by decide⟩

/-- Claim C10 as amended: for a nil `*Chain` receiver, or a cell whose
current slot no longer holds a Parent, every navigation method is total
and safe — `Enabled` is false, `Root`, `CurArray` and `CurObject` are
nil, `As`/`Add` return the receiver unchanged without invoking DPanic —
and `End` yields the zero-value parent for a nil receiver or a cleared
owner slot, while on a live cell it returns the stored owner (and still
pools the cell). -/
theorem claim_C10_amended_terminated_nav :
    ∀ {P : Type} [DecidableEq P] [Inhabited P] (st : ChainSt P) (x : Nat) (key : String),
      (Chain.Enabled (none : Option Nat) st = false
        ∧ Chain.Root (none : Option Nat) st = none
        ∧ Chain.CurArray (none : Option Nat) st = (none, st)
        ∧ Chain.CurObject (none : Option Nat) st = (none, st)
        ∧ Chain.As (none : Option Nat) key st = st
        ∧ Chain.Add (none : Option Nat) st = st
        ∧ Chain.End (none : Option Nat) st = (default, st))
      ∧ ((st.cells x).b = none →
          Chain.Enabled (some x) st = false
          ∧ Chain.Root (some x) st = none
          ∧ Chain.CurArray (some x) st = (none, st)
          ∧ Chain.CurObject (some x) st = (none, st)
          ∧ Chain.As (some x) key st = st
          ∧ Chain.Add (some x) st = st
          ∧ Chain.End (some x) st = (((st.cells x).a).getD default, refPoolPut st x)
          ∧ ((st.cells x).a = none → (Chain.End (some x) st).1 = default)) := by
  intro P _ _ st x key
  constructor
  · exact ⟨rfl, rfl, by simp [Chain.CurArray, Chain.Enabled, Chain.current],
      by simp [Chain.CurObject, Chain.Enabled, Chain.current], rfl, rfl, rfl⟩
  · intro h
    refine ⟨?_, ?_, ?_, ?_, chainAs_none st x key h, chainAs_none st x "" h, rfl, ?_⟩
    · simp [Chain.Enabled, Chain.current, h]
    · simp [Chain.Root, Chain.current, h]
    · simp [Chain.CurArray, Chain.Enabled, Chain.current, h]
    · simp [Chain.CurObject, Chain.Enabled, Chain.current, h]
    · intro ha
      simp [Chain.End, ha]

/-- Witness for claim C10 (amended) at the concrete misused cell (live
owner slot) and at the never-allocated cell 1 (cleared owner slot). -/
theorem claim_C10_witness :
    (Chain.Enabled (none : Option Nat) wMisuseSt = false
      ∧ Chain.Root (none : Option Nat) wMisuseSt = none
      ∧ Chain.CurArray (none : Option Nat) wMisuseSt = (none, wMisuseSt)
      ∧ Chain.CurObject (none : Option Nat) wMisuseSt = (none, wMisuseSt)
      ∧ Chain.As (none : Option Nat) "k" wMisuseSt = wMisuseSt
      ∧ Chain.Add (none : Option Nat) wMisuseSt = wMisuseSt
      ∧ Chain.End (none : Option Nat) wMisuseSt = (default, wMisuseSt))
    ∧ Chain.Enabled (some 1) wMisuseSt = false
    ∧ Chain.Root (some 1) wMisuseSt = none
    ∧ (Chain.End (some 1) wMisuseSt).1 = default :=
  have h := claim_C10_amended_terminated_nav wMisuseSt 1 "k"
  have hb : (wMisuseSt.cells 1).b = none := by decide
  have ha : (wMisuseSt.cells 1).a = none := by decide
  ⟨h.1, (h.2 hb).1, (h.2 hb).2.1, (h.2 hb).2.2.2.2.2.2.2 ha⟩

/-- The chain state after opening `j ≥ 1` nested scopes from root parent
`p`: cell `0` holds the root, cell `i` (for `1 ≤ i < j`) holds sub-builder
`i - 1` as its current, sub-builder `i` lives under cell `i`, and nothing
has been pooled or reported. -/
structure OpenedInv {P : Type} (p : P) (j : Nat) (st : ChainSt P) : Prop where
  hc0 : st.cells 0 = ⟨some p, some (CurVal.root p)⟩
  hci : ∀ i, 1 ≤ i → i < j → st.cells i = ⟨some p, some (CurVal.bld (i - 1))⟩
  hch : ∀ i, j ≤ i → st.cells i = ⟨none, none⟩
  hbi : ∀ i, i < j → ∃ k, st.builders i = some ⟨k, i⟩
  hbh : ∀ i, j ≤ i → st.builders i = none
  hnc : st.nextCell = j
  hnb : st.nextBldr = j
  hpool : st.pooled = []
  hdp : st.dpanics = []

/-- `curEnabled` reaches the root from sub-builder `i` whenever the state
contains the tower of cells/builders below `j` (pointwise facts only, so
it applies to extended states too). -/
theorem curEnabled_tower {P : Type} (p : P) (j : Nat) (st : ChainSt P)
    (hc0 : (st.cells 0).b = some (CurVal.root p))
    (hci : ∀ i, 1 ≤ i → i < j → (st.cells i).b = some (CurVal.bld (i - 1)))
    (hbi : ∀ i, i < j → ∃ k, st.builders i = some ⟨k, i⟩) :
    ∀ (fuel i : Nat), i < j → i < fuel → curEnabled fuel st (CurVal.bld i) = true := by
  intro fuel
  induction fuel with
  | zero => intro i _ hif; omega
  | succ f ih =>
      intro i hij hif
      obtain ⟨k, hbk⟩ := hbi i hij
      by_cases h0 : i = 0
      · subst h0
        simp [curEnabled, hbk, hc0]
      · have h1 : 1 ≤ i := by omega
        simp only [curEnabled, hbk, hci i h1 hij]
        exact ih (i - 1) (by omega) (by omega)

/-- `newBuilder` under an enabled parent: the new sub-builder id and the
updated state. -/
theorem newBuilder_enabled {P : Type} [DecidableEq P] (st : ChainSt P) (pc : Nat)
    (k : BKind) (hen : Chain.Enabled (some pc) st = true) :
    newBuilder k pc st
      = (some st.nextBldr,
        { st with
          builders := fun q => if q = st.nextBldr then some ⟨k, pc⟩ else st.builders q
          nextBldr := st.nextBldr + 1 }) := by
  simp [newBuilder, hen]

/-- Opening the first scope from a fresh `newChainParent` cell: the
explicit one-scope state. -/
theorem opened_first_eq {P : Type} [DecidableEq P] (p : P) (k0 : BKind) :
    newBuilder k0 (newChainParent p (ChainSt.init P)).1 (newChainParent p (ChainSt.init P)).2
      = (some 0,
        { cells := fun q => if q = 0 then ⟨some p, some (CurVal.root p)⟩ else ⟨none, none⟩
          nextCell := 1
          builders := fun q => if q = 0 then some ⟨k0, 0⟩ else none
          nextBldr := 1
          pooled := []
          dpanics := []
          writes := [] }) := rfl

/-- The one-scope state satisfies the opened invariant. -/
theorem opened_first {P : Type} [DecidableEq P] (p : P) (k0 : BKind) :
    (newBuilder k0 (newChainParent p (ChainSt.init P)).1
        (newChainParent p (ChainSt.init P)).2).1 = some 0
    ∧ OpenedInv p 1 (newBuilder k0 (newChainParent p (ChainSt.init P)).1
        (newChainParent p (ChainSt.init P)).2).2 := by
  rw [opened_first_eq]
  refine ⟨rfl, ?_, ?_, ?_, ?_, ?_, rfl, rfl, rfl, rfl⟩
  · rfl
  · intro i h1 hij
    omega
  · intro i hij
    show (if i = 0 then _ else _) = CellData.mk none none
    rw [if_neg (by omega)]
  · intro i hij
    have h0 : i = 0 := by omega
    subst h0
    exact ⟨k0, rfl⟩
  · intro i hij
    show (if i = 0 then _ else _) = none
    rw [if_neg (by omega)]

/-- `builderNest` from the innermost sub-builder: reduces to `newBuilder`
on the freshly acquired cell. -/
theorem builderNest_eq {P : Type} [DecidableEq P] {st : ChainSt P} {bid : Nat} {p : P}
    {kk : BKind} (k : BKind)
    (hen : curEnabled (chainFuel st) st (CurVal.bld bid) = true)
    (hbk : st.builders bid = some ⟨kk, bid⟩) (hpa : (st.cells bid).a = some p) :
    builderNest k bid st
      = newBuilder k st.nextCell
          { st with
            cells := fun q =>
              if q = st.nextCell then ⟨some p, some (CurVal.bld bid)⟩ else st.cells q
            nextCell := st.nextCell + 1 } := by
  simp [builderNest, hen, hbk, hpa, newChain, refPoolGet]

/-- Nesting one more scope from the innermost sub-builder `j - 1` of an
opened state yields sub-builder `j` and the `j + 1`-scope opened state. -/
theorem opened_step {P : Type} [DecidableEq P] {p : P} {j : Nat} {st : ChainSt P}
    (inv : OpenedInv p j st) (hj : 1 ≤ j) (k : BKind) :
    (builderNest k (j - 1) st).1 = some j
    ∧ OpenedInv p (j + 1) (builderNest k (j - 1) st).2 := by
  have htower := curEnabled_tower p j st (by rw [inv.hc0])
    (fun i h1 hij => by rw [inv.hci i h1 hij]) inv.hbi
  have hen : curEnabled (chainFuel st) st (CurVal.bld (j - 1)) = true := by
    refine htower (chainFuel st) (j - 1) (by omega) ?_
    rw [chainFuel, inv.hnb]
    omega
  obtain ⟨k', hbk⟩ := inv.hbi (j - 1) (by omega)
  have hpa : (st.cells (j - 1)).a = some p := by
    by_cases h0 : j - 1 = 0
    · rw [h0, inv.hc0]
    · rw [inv.hci (j - 1) (by omega) (by omega)]
  have hne := builderNest_eq k hen hbk hpa
  set stm : ChainSt P :=
    { st with
      cells := fun q =>
        if q = st.nextCell then ⟨some p, some (CurVal.bld (j - 1))⟩ else st.cells q
      nextCell := st.nextCell + 1 } with hstm
  have hen2 : Chain.Enabled (some st.nextCell) stm = true := by
    have htower2 := curEnabled_tower p j stm
      (by
        show ((if 0 = st.nextCell then _ else st.cells 0) : CellData P).b = _
        rw [if_neg (by rw [inv.hnc]; omega), inv.hc0])
      (fun i h1 hij => by
        show ((if i = st.nextCell then _ else st.cells i) : CellData P).b = _
        rw [if_neg (by rw [inv.hnc]; omega), inv.hci i h1 hij])
      (fun i hij => inv.hbi i hij)
    have hcur : Chain.current (some st.nextCell) stm = some (CurVal.bld (j - 1)) := by
      show ((if st.nextCell = st.nextCell then _ else st.cells st.nextCell) : CellData P).b = _
      rw [if_pos rfl]
    rw [Chain.Enabled, hcur]
    refine htower2 (chainFuel stm) (j - 1) (by omega) ?_
    show j - 1 < stm.nextBldr + 1
    have : stm.nextBldr = j := inv.hnb
    omega
  have hnb2 := newBuilder_enabled stm st.nextCell k hen2
  have hncm : stm.nextBldr = j := inv.hnb
  have hncc : st.nextCell = j := inv.hnc
  rw [hne, hnb2, hncm]
  refine ⟨rfl, ?_⟩
  refine ⟨?_, ?_, ?_, ?_, ?_, ?_, ?_, ?_, ?_⟩
  · show ((if 0 = st.nextCell then _ else st.cells 0) : CellData P) = _
    rw [if_neg (by omega), inv.hc0]
  · intro i h1 hij
    show ((if i = st.nextCell then _ else st.cells i) : CellData P) = _
    by_cases hi : i = j
    · subst hi
      rw [if_pos (by omega)]
    · rw [if_neg (by omega), inv.hci i h1 (by omega)]
  · intro i hij
    show ((if i = st.nextCell then _ else st.cells i) : CellData P) = _
    rw [if_neg (by omega), inv.hch i (by omega)]
  · intro i hij
    by_cases hi : i = j
    · subst hi
      exact ⟨k, by simp [hncc]⟩
    · obtain ⟨kx, hkx⟩ := inv.hbi i (by omega)
      exact ⟨kx, by simpa [hi] using hkx⟩
  · intro i hij
    show (if i = j then _ else st.builders i) = none
    rw [if_neg (by omega), inv.hbh i (by omega)]
  · show st.nextCell + 1 = j + 1
    omega
  · rfl
  · exact inv.hpool
  · exact inv.hdp

/-- `openRest` keeps the opened invariant, returning the innermost
sub-builder `j - 1 + ks.length`. -/
theorem openRest_spec {P : Type} [DecidableEq P] {p : P} :
    ∀ (ks : List BKind) (j : Nat) (st : ChainSt P), OpenedInv p j st → 1 ≤ j →
      (openRest (j - 1) ks st).1 = some (j - 1 + ks.length)
      ∧ OpenedInv p (j + ks.length) (openRest (j - 1) ks st).2 := by
  intro ks
  induction ks with
  | nil => intro j st inv hj; exact ⟨by simp [openRest], by simpa using inv⟩
  | cons k rest ih =>
      intro j st inv hj
      obtain ⟨h1, h2⟩ := opened_step inv hj k
      have hrec := ih (j + 1) (builderNest k (j - 1) st).2 h2 (by omega)
      have hred : openRest (j - 1) (k :: rest) st
          = openRest j rest (builderNest k (j - 1) st).2 := by
        rcases hb : builderNest k (j - 1) st with ⟨ob, st2⟩
        rw [hb] at h1
        simp at h1
        simp [openRest, hb, h1]
      have hj1 : j + 1 - 1 = j := by omega
      rw [hj1] at hrec
      rw [hred]
      constructor
      · rw [hrec.1]
        congr 1
        simp
        omega
      · have := hrec.2
        have hlen : j + 1 + rest.length = j + (rest.length + 1) := by omega
        rwa [hlen] at this

/-- The current target of tower cell `i`: the root for cell `0`, the
next-inner sub-builder otherwise. -/
def towerCur (p : P) (i : Nat) : CurVal P :=
  if i = 0 then CurVal.root p else CurVal.bld (i - 1)

/-- The chain state during the closing phase: `N` scopes were opened, the
innermost sub-builder was closed by its own `As` (which returned cell
`N - 1` as the navigator), and `m` further `Chain.As` steps have run.
Cells below `N - 1 - m` still form the tower, the navigator cell `N - 1`
now points at tower level `N - 1 - m`, the cells in between have been
pooled (in descending order), and no misuse was reported. -/
structure ClosedInv {P : Type} (p : P) (N m : Nat) (st : ChainSt P) : Prop where
  hnav : st.cells (N - 1) = ⟨some p, some (towerCur p (N - 1 - m))⟩
  hlow : ∀ i, i < N - 1 - m → st.cells i = ⟨some p, some (towerCur p i)⟩
  hmid : ∀ i, N - 1 - m ≤ i → i < N - 1 → st.cells i = ⟨none, none⟩
  hhigh : ∀ i, N ≤ i → st.cells i = ⟨none, none⟩
  hbi : ∀ i, i < N → ∃ k, st.builders i = some ⟨k, i⟩
  hnb : st.nextBldr = N
  hpool : st.pooled = (List.range m).map (fun t => N - 2 - t)
  hdp : st.dpanics = []

/-- `builderAs` of a live sub-builder: returns its parent cell and records
the attach. -/
theorem builderAs_eq {P : Type} {st : ChainSt P} {bid pc : Nat} {kk : BKind}
    (key : String) (hbk : st.builders bid = some ⟨kk, pc⟩) :
    builderAs bid key st
      = (some pc, { st with writes := st.writes ++ [((st.cells pc).b, key, bid)] }) := by
  simp [builderAs, hbk]

/-- Closing the innermost sub-builder of a fully opened state starts the
closing invariant at `m = 0` (the extra write does not disturb it). -/
theorem closed_init {P : Type} {p : P} {N : Nat} {st : ChainSt P} {w : List (Option (CurVal P) × String × Nat)}
    (inv : OpenedInv p N st) (hN : 1 ≤ N) :
    ClosedInv p N 0 { st with writes := w } := by
  refine ⟨?_, ?_, ?_, ?_, ?_, ?_, ?_, ?_⟩
  · show st.cells (N - 1) = _
    have h0 : N - 1 - 0 = N - 1 := by omega
    rw [h0]
    by_cases h1 : N = 1
    · subst h1
      rw [inv.hc0]
      rfl
    · rw [inv.hci (N - 1) (by omega) (by omega), towerCur, if_neg (by omega)]
  · intro i hi
    show st.cells i = _
    by_cases h0 : i = 0
    · subst h0
      rw [inv.hc0]
      rfl
    · rw [inv.hci i (by omega) (by omega), towerCur, if_neg h0]
  · intro i h1 h2
    omega
  · intro i hi
    exact inv.hch i hi
  · exact inv.hbi
  · exact inv.hnb
  · simpa using inv.hpool
  · exact inv.hdp

/-- One closing `Chain.As` step: the navigator advances one tower level
and the closed scope's cell is pooled. -/
theorem closed_step {P : Type} [DecidableEq P] {p : P} {N m : Nat} {st : ChainSt P}
    (inv : ClosedInv p N m st) (hN : 1 ≤ N) (hm : m < N - 1) (key : String) :
    ClosedInv p N (m + 1) (Chain.As (some (N - 1)) key st) := by
  have hc1 : 1 ≤ N - 1 - m := by omega
  obtain ⟨kk, hbk⟩ := inv.hbi (N - 1 - m - 1) (by omega)
  have hnav' : st.cells (N - 1) = ⟨some p, some (CurVal.bld (N - 1 - m - 1))⟩ := by
    rw [inv.hnav, towerCur, if_neg (by omega)]
  have hbc : st.cells (N - 1 - m - 1) = ⟨some p, some (towerCur p (N - 1 - m - 1))⟩ :=
    inv.hlow (N - 1 - m - 1) (by omega)
  have hne1 : ¬(N - 1 - m - 1 = N - 1) := by omega
  have hne2 : ¬(N - 1 = N - 1 - m - 1) := by omega
  have heq : Chain.As (some (N - 1)) key st
      = { st with
          cells := fun q =>
            if q = N - 1 - m - 1 then ⟨none, none⟩
            else if q = N - 1 then ⟨some p, some (towerCur p (N - 1 - m - 1))⟩
            else st.cells q
          pooled := st.pooled ++ [N - 1 - m - 1]
          writes := st.writes ++ [(some (towerCur p (N - 1 - m - 1)), key, N - 1 - m - 1)] } := by
    simp only [Chain.As, hnav', builderAs, hbk]
    rw [hbc]
    simp [refPoolPut, setCur, hne1, hne2, hnav']
  rw [heq]
  refine ⟨?_, ?_, ?_, ?_, ?_, ?_, ?_, ?_⟩
  · show (if N - 1 = N - 1 - m - 1 then _
        else if N - 1 = N - 1 then _ else st.cells (N - 1)) = _
    rw [if_neg hne2, if_pos rfl]
    have h3 : N - 1 - (m + 1) = N - 1 - m - 1 := by omega
    rw [h3]
  · intro i hi
    show (if i = N - 1 - m - 1 then _ else if i = N - 1 then _ else st.cells i) = _
    rw [if_neg (by omega), if_neg (by omega)]
    exact inv.hlow i (by omega)
  · intro i h1 h2
    show (if i = N - 1 - m - 1 then _ else if i = N - 1 then _ else st.cells i) = _
    by_cases hib : i = N - 1 - m - 1
    · rw [if_pos hib]
    · rw [if_neg hib, if_neg (by omega)]
      exact inv.hmid i (by omega) h2
  · intro i hi
    show (if i = N - 1 - m - 1 then _ else if i = N - 1 then _ else st.cells i) = _
    rw [if_neg (by omega), if_neg (by omega)]
    exact inv.hhigh i hi
  · exact inv.hbi
  · exact inv.hnb
  · show st.pooled ++ [N - 1 - m - 1] = _
    rw [inv.hpool, List.range_succ, List.map_append]
    congr 1
    simp
    omega
  · exact inv.hdp

/-- `closeAll` runs the closing invariant to completion. -/
theorem closeAll_spec {P : Type} [DecidableEq P] {p : P} {N : Nat} :
    ∀ (keys : List String) (m : Nat) (st : ChainSt P), ClosedInv p N m st → 1 ≤ N →
      m + keys.length = N - 1 →
      ClosedInv p N (N - 1) (closeAll (some (N - 1)) keys st) := by
  intro keys
  induction keys with
  | nil =>
      intro m st inv hN hlen
      have hm : m = N - 1 := by simpa using hlen
      subst hm
      simpa [closeAll] using inv
  | cons k rest ih =>
      intro m st inv hN hlen
      have hm : m < N - 1 := by
        have := hlen
        simp [List.length_cons] at this
        omega
      have hstep := closed_step inv hN hm k
      have := ih (m + 1) (Chain.As (some (N - 1)) k st) hstep hN (by
        simp [List.length_cons] at hlen
        omega)
      simpa [closeAll] using this

/-- The descending pooled-cell list is the reversed allocation order. -/
theorem map_sub_range (n : Nat) :
    (List.range n).map (fun t => n - 1 - t) = (List.range n).reverse := by
  have h := List.reverse_range' 0 n
  rw [← List.range_eq_range'] at h
  simp only [Nat.zero_add] at h
  rw [h]

/-- Claim C5: for every parent `P` and every `N ≥ 1`, opening `N` nested
scopes from `P` (via `newChainParent` and the chained constructors) and
closing them all with matching `As` calls followed by `End` returns
exactly the original parent; each closing `Chain.As` reclaims to the pool
exactly the cell of the scope it closes (the pooled list is every
allocated cell exactly once, in closing order), `End` unconditionally
returns the remaining cell to the pool regardless of how many `As` calls
preceded it, and `End` on a nil Chain yields the zero-value parent as a
safe no-op. -/
theorem claim_C5_chain_roundtrip :
    (∀ {P : Type} [DecidableEq P] [Inhabited P] (p : P) (k0 : BKind) (ks : List BKind)
      (key0 : String) (keyRest : List String), ks.length = keyRest.length →
        (scenario p k0 ks key0 keyRest).1 = p
        ∧ (scenario p k0 ks key0 keyRest).2.pooled
            = (List.range ks.length).reverse ++ [ks.length]
        ∧ (scenario p k0 ks key0 keyRest).2.dpanics = [])
    ∧ (∀ {P : Type} [DecidableEq P] [Inhabited P] (st : ChainSt P) (x : Nat),
        (Chain.End (some x) st).2.pooled = st.pooled ++ [x]
        ∧ Chain.End (none : Option Nat) st = (default, st)) := by
  constructor
  · intro P _ _ p k0 ks key0 keyRest hlen
    have hfe := opened_first_eq p k0
    have hinvA : OpenedInv p 1
        (newBuilder k0 (newChainParent p (ChainSt.init P)).1
          (newChainParent p (ChainSt.init P)).2).2 := (opened_first p k0).2
    have hspec := openRest_spec ks 1
      (newBuilder k0 (newChainParent p (ChainSt.init P)).1
        (newChainParent p (ChainSt.init P)).2).2 hinvA (le_refl 1)
    rcases ho : openRest (1 - 1) ks
        (newBuilder k0 (newChainParent p (ChainSt.init P)).1
          (newChainParent p (ChainSt.init P)).2).2 with ⟨ob, stB⟩
    rw [ho] at hspec
    have hob : ob = some ks.length := by simpa using hspec.1
    have hinvB : OpenedInv p (ks.length + 1) stB := by
      have := hspec.2
      rwa [Nat.add_comm 1 ks.length] at this
    subst hob
    obtain ⟨kk, hbk⟩ := hinvB.hbi ks.length (by omega)
    have hba := builderAs_eq key0 hbk
    have hscen : scenario p k0 ks key0 keyRest
        = Chain.End (some ks.length)
            (closeAll (some ks.length) keyRest
              { stB with
                writes := stB.writes ++ [((stB.cells ks.length).b, key0, ks.length)] }) := by
      rw [scenario]
      rcases hnb : newBuilder k0 (newChainParent p (ChainSt.init P)).1
          (newChainParent p (ChainSt.init P)).2 with ⟨nb, stA⟩
      have hnb1 : nb = some 0 := by rw [hnb] at hfe; simpa using congrArg Prod.fst hfe
      subst hnb1
      have ho' : openRest 0 ks stA = (some ks.length, stB) := by
        have h0 : (1 : Nat) - 1 = 0 := rfl
        rw [h0] at ho
        rw [hnb] at ho
        exact ho
      simp only [ho', hba]
    have hinvC : ClosedInv p (ks.length + 1) 0
        { stB with
          writes := stB.writes ++ [((stB.cells ks.length).b, key0, ks.length)] } :=
      closed_init hinvB (by omega)
    have hfin := closeAll_spec keyRest 0 _ hinvC (by omega) (by omega)
    have hN1 : ks.length + 1 - 1 = ks.length := by omega
    rw [hN1] at hfin
    have hnav := hfin.hnav
    rw [hN1] at hnav
    have h00 : ks.length - ks.length = 0 := by omega
    rw [h00] at hnav
    have htc : towerCur p 0 = CurVal.root p := rfl
    rw [htc] at hnav
    rw [hscen]
    refine ⟨?_, ?_, ?_⟩
    · show ((closeAll (some ks.length) keyRest _).cells ks.length).a.getD default = p
      rw [hnav]
      rfl
    · show (closeAll (some ks.length) keyRest _).pooled ++ [ks.length] = _
      have hp := hfin.hpool
      rw [hp]
      congr 1
      have hfeq : (fun t => ks.length + 1 - 2 - t) = (fun t => ks.length - 1 - t) := by
        funext t
        omega
      rw [hfeq, map_sub_range]
    · show (closeAll (some ks.length) keyRest _).dpanics = []
      exact hfin.hdp
  · intro P _ _ st x
    exact ⟨rfl, rfl⟩

/-- Stripping an exact appended suffix. -/
theorem trimSuffix_of_append (a b : String) : trimSuffix (a ++ b) b = a := by
  have hsuf : b.data.isSuffixOf (a ++ b).data = true := by
    rw [String.data_append]
    simp [List.isSuffixOf_iff_suffix, List.suffix_append]
  rw [trimSuffix, if_pos hsuf]
  apply String.ext
  show (a ++ b).data.take ((a ++ b).data.length - b.data.length) = a.data
  rw [String.data_append, List.length_append]
  have h : a.data.length + b.data.length - b.data.length = a.data.length := by omega
  rw [h, List.take_left]

/-- `trimSuffix` is the identity when the suffix is absent. -/
theorem trimSuffix_of_not (s b : String) (h : ¬b.data <:+ s.data) : trimSuffix s b = s := by
  rw [trimSuffix, if_neg]
  simpa [List.isSuffixOf_iff_suffix] using h

/-- Two lists with equal three-element tails appended are tail-equal. -/
theorem three_tail_eq {u w : List Char} {p q r a b c : Char}
    (h : u ++ [p, q, r] = w ++ [a, b, c]) : p = a ∧ q = b ∧ r = c := by
  have hlen : u.length = w.length := by
    have hl := congrArg List.length h
    simp at hl
    omega
  have hd1 : (u ++ [p, q, r]).drop u.length = [p, q, r] := List.drop_left u [p, q, r]
  have hd2 : (w ++ [a, b, c]).drop w.length = [a, b, c] := List.drop_left w [a, b, c]
  rw [h, hlen, hd2] at hd1
  simp at hd1
  exact ⟨hd1.1.symm, hd1.2.1.symm, hd1.2.2.symm⟩

/-- `"000"` is not a suffix when the last three characters are not all
`'0'`. -/
theorem not_suffix_000 {x : List Char} {a b c : Char}
    (hne : ¬(a = '0' ∧ b = '0' ∧ c = '0')) :
    ¬("000" : String).data <:+ x ++ [a, b, c] := by
  intro h
  obtain ⟨u, hu⟩ := h
  have hu' : u ++ ['0', '0', '0'] = x ++ [a, b, c] := hu
  obtain ⟨h1, h2, h3⟩ := three_tail_eq hu'
  exact hne ⟨h1.symm, h2.symm, h3.symm⟩

/-- `".000"` is not a suffix when the last three characters are not all
`'0'`. -/
theorem not_suffix_dot000 {x : List Char} {a b c : Char}
    (hne : ¬(a = '0' ∧ b = '0' ∧ c = '0')) :
    ¬(".000" : String).data <:+ x ++ [a, b, c] := by
  intro h
  obtain ⟨u, hu⟩ := h
  have hu' : (u ++ ['.']) ++ ['0', '0', '0'] = x ++ [a, b, c] := by
    simpa [List.append_assoc] using hu
  obtain ⟨h1, h2, h3⟩ := three_tail_eq hu'
  exact hne ⟨h1.symm, h2.symm, h3.symm⟩

/-- A nonzero digit below 10 does not render as `'0'`. -/
theorem digitChar_zero (k : Nat) (hk : k < 10) (h : Nat.digitChar k = '0') : k = 0 := by
  interval_cases k <;> first | rfl | exact absurd h (by decide)

/-- The six leading fractional digits (used when `"000"` was trimmed
once). -/
def frac6 (m : Nat) : List Char :=
  [Nat.digitChar (m / 100000 % 10), Nat.digitChar (m / 10000 % 10),
   Nat.digitChar (m / 1000 % 10), Nat.digitChar (m / 100 % 10),
   Nat.digitChar (m / 10 % 10), Nat.digitChar (m % 10)]

/-- The three leading fractional digits (used when `"000"` was trimmed
twice). -/
def frac3 (r : Nat) : List Char :=
  [Nat.digitChar (r / 100 % 10), Nat.digitChar (r / 10 % 10), Nat.digitChar (r % 10)]

/-- When the last three digits are zero, `frac9` is `frac6` of the
quotient padded with zeros. -/
theorem frac9_mod1000 (n : Nat) (h : n % 1000 = 0) :
    frac9 n = frac6 (n / 1000) ++ ['0', '0', '0'] := by
  have h10 : n % 10 = 0 := by omega
  have h100 : n / 10 % 10 = 0 := by omega
  have h1000 : n / 100 % 10 = 0 := by omega
  rw [frac9, frac6, h10, h100, h1000]
  rw [show n / 1000 / 100000 = n / 100000000 by rw [Nat.div_div_eq_div_mul],
    show n / 1000 / 10000 = n / 10000000 by rw [Nat.div_div_eq_div_mul],
    show n / 1000 / 1000 = n / 1000000 by rw [Nat.div_div_eq_div_mul],
    show n / 1000 / 100 = n / 100000 by rw [Nat.div_div_eq_div_mul],
    show n / 1000 / 10 = n / 10000 by rw [Nat.div_div_eq_div_mul],
    show n / 1000 % 10 = n / 1000 % 10 from rfl]
  rfl

/-- When the last six digits are zero, `frac6` of the quotient is `frac3`
of the next quotient padded with zeros. -/
theorem frac6_mod1000 (m : Nat) (h : m % 1000 = 0) :
    frac6 m = frac3 (m / 1000) ++ ['0', '0', '0'] := by
  have h10 : m % 10 = 0 := by omega
  have h100 : m / 10 % 10 = 0 := by omega
  have h1000 : m / 100 % 10 = 0 := by omega
  rw [frac6, frac3, h10, h100, h1000]
  rw [show m / 1000 / 100 = m / 100000 by rw [Nat.div_div_eq_div_mul],
    show m / 1000 / 10 = m / 10000 by rw [Nat.div_div_eq_div_mul]]
  rfl

/-- The last three digits of `frac9 n` are not all `'0'` when
`n % 1000 ≠ 0`. -/
theorem frac9_tail_ne (n : Nat) (h : n % 1000 ≠ 0) :
    ¬(Nat.digitChar (n / 100 % 10) = '0' ∧ Nat.digitChar (n / 10 % 10) = '0'
      ∧ Nat.digitChar (n % 10) = '0') := by
  rintro ⟨h1, h2, h3⟩
  have e1 := digitChar_zero _ (Nat.mod_lt _ (by omega)) h1
  have e2 := digitChar_zero _ (Nat.mod_lt _ (by omega)) h2
  have e3 := digitChar_zero _ (Nat.mod_lt _ (by omega)) h3
  omega

/-- `String.mk` distributes over list append. -/
theorem mk_append (l1 l2 : List Char) : String.mk (l1 ++ l2) = String.mk l1 ++ String.mk l2 := by
  apply String.ext
  rw [String.data_append]

/-- `frac9` split into its first six and last three digits. -/
theorem frac9_split (n : Nat) :
    frac9 n
      = [Nat.digitChar (n / 100000000 % 10), Nat.digitChar (n / 10000000 % 10),
         Nat.digitChar (n / 1000000 % 10), Nat.digitChar (n / 100000 % 10),
         Nat.digitChar (n / 10000 % 10), Nat.digitChar (n / 1000 % 10)]
        ++ [Nat.digitChar (n / 100 % 10), Nat.digitChar (n / 10 % 10),
            Nat.digitChar (n % 10)] := rfl

/-- `frac6` split into its first three and last three digits. -/
theorem frac6_split (m : Nat) :
    frac6 m
      = [Nat.digitChar (m / 100000 % 10), Nat.digitChar (m / 10000 % 10),
         Nat.digitChar (m / 1000 % 10)]
        ++ [Nat.digitChar (m / 100 % 10), Nat.digitChar (m / 10 % 10),
            Nat.digitChar (m % 10)] := rfl

/-- `frac3` as an empty prefix plus its three digits. -/
theorem frac3_split (r : Nat) :
    frac3 r
      = [] ++ [Nat.digitChar (r / 100 % 10), Nat.digitChar (r / 10 % 10),
          Nat.digitChar (r % 10)] := rfl

/-- `formatTimestamp` with a zero nanosecond part: no fractional digits,
just the base plus the `"Z"` suffix. -/
theorem formatTimestamp_zero (t : GoTime) (h : t.nanos = 0) :
    formatTimestamp t = goTimeBase t ++ "Z" := by
  rw [formatTimestamp, h]
  rw [show String.mk (frac9 0) = "000000000" from rfl]
  rw [show (goTimeBase t ++ "." ++ "000000000") = (goTimeBase t ++ ".000000") ++ "000" by
    rw [String.append_assoc, String.append_assoc]
    congr 1]
  rw [trimSuffix_of_append]
  rw [show (goTimeBase t ++ ".000000") = (goTimeBase t ++ ".000") ++ "000" by
    rw [String.append_assoc]
    congr 1]
  rw [trimSuffix_of_append]
  rw [show (goTimeBase t ++ ".000") = goTimeBase t ++ ".000" from rfl]
  rw [trimSuffix_of_append]

/-- `formatTimestamp` when the last three digits are live: all nine
fractional digits survive. -/
theorem formatTimestamp_nine (t : GoTime) (h : t.nanos % 1000 ≠ 0) :
    formatTimestamp t = goTimeBase t ++ "." ++ String.mk (frac9 t.nanos) ++ "Z" := by
  have hd : (goTimeBase t ++ "." ++ String.mk (frac9 t.nanos)).data
      = ((goTimeBase t ++ ".").data
          ++ [Nat.digitChar (t.nanos / 100000000 % 10), Nat.digitChar (t.nanos / 10000000 % 10),
              Nat.digitChar (t.nanos / 1000000 % 10), Nat.digitChar (t.nanos / 100000 % 10),
              Nat.digitChar (t.nanos / 10000 % 10), Nat.digitChar (t.nanos / 1000 % 10)])
        ++ [Nat.digitChar (t.nanos / 100 % 10), Nat.digitChar (t.nanos / 10 % 10),
            Nat.digitChar (t.nanos % 10)] := by
    rw [String.data_append]
    show (goTimeBase t ++ ".").data ++ frac9 t.nanos = _
    rw [frac9_split, ← List.append_assoc]
  have h1 : trimSuffix (goTimeBase t ++ "." ++ String.mk (frac9 t.nanos)) "000"
      = goTimeBase t ++ "." ++ String.mk (frac9 t.nanos) := by
    apply trimSuffix_of_not
    rw [hd]
    exact not_suffix_000 (frac9_tail_ne _ h)
  have h2 : trimSuffix (goTimeBase t ++ "." ++ String.mk (frac9 t.nanos)) ".000"
      = goTimeBase t ++ "." ++ String.mk (frac9 t.nanos) := by
    apply trimSuffix_of_not
    rw [hd]
    exact not_suffix_dot000 (frac9_tail_ne _ h)
  rw [formatTimestamp, h1, h1, h2]

/-- `formatTimestamp` when exactly the last three digits are zero: six
fractional digits survive. -/
theorem formatTimestamp_six (t : GoTime) (h3 : t.nanos % 1000 = 0)
    (h6 : t.nanos % 1000000 ≠ 0) :
    formatTimestamp t
      = goTimeBase t ++ "." ++ String.mk (frac6 (t.nanos / 1000)) ++ "Z" := by
  have hm : t.nanos / 1000 % 1000 ≠ 0 := by omega
  have hd : (goTimeBase t ++ "." ++ String.mk (frac6 (t.nanos / 1000))).data
      = ((goTimeBase t ++ ".").data
          ++ [Nat.digitChar (t.nanos / 1000 / 100000 % 10),
              Nat.digitChar (t.nanos / 1000 / 10000 % 10),
              Nat.digitChar (t.nanos / 1000 / 1000 % 10)])
        ++ [Nat.digitChar (t.nanos / 1000 / 100 % 10), Nat.digitChar (t.nanos / 1000 / 10 % 10),
            Nat.digitChar (t.nanos / 1000 % 10)] := by
    rw [String.data_append]
    show (goTimeBase t ++ ".").data ++ frac6 (t.nanos / 1000) = _
    rw [frac6_split, ← List.append_assoc]
  rw [formatTimestamp]
  rw [show (goTimeBase t ++ "." ++ String.mk (frac9 t.nanos))
      = (goTimeBase t ++ "." ++ String.mk (frac6 (t.nanos / 1000))) ++ "000" by
    rw [frac9_mod1000 t.nanos h3, mk_append,
      show String.mk ['0', '0', '0'] = "000" from rfl, ← String.append_assoc]]
  rw [trimSuffix_of_append]
  have h1 : trimSuffix (goTimeBase t ++ "." ++ String.mk (frac6 (t.nanos / 1000))) "000"
      = goTimeBase t ++ "." ++ String.mk (frac6 (t.nanos / 1000)) := by
    apply trimSuffix_of_not
    rw [hd]
    exact not_suffix_000 (frac9_tail_ne _ hm)
  have h2 : trimSuffix (goTimeBase t ++ "." ++ String.mk (frac6 (t.nanos / 1000))) ".000"
      = goTimeBase t ++ "." ++ String.mk (frac6 (t.nanos / 1000)) := by
    apply trimSuffix_of_not
    rw [hd]
    exact not_suffix_dot000 (frac9_tail_ne _ hm)
  rw [h1, h2]

/-- `formatTimestamp` when exactly the last six digits are zero (but not
all nine): three fractional digits survive. -/
theorem formatTimestamp_three (t : GoTime) (h6 : t.nanos % 1000000 = 0)
    (h0 : t.nanos ≠ 0) (hlt : t.nanos < 1000000000) :
    formatTimestamp t
      = goTimeBase t ++ "." ++ String.mk (frac3 (t.nanos / 1000000)) ++ "Z" := by
  have h3 : t.nanos % 1000 = 0 := by omega
  have hm3 : t.nanos / 1000 % 1000 = 0 := by omega
  have hr : t.nanos / 1000000 % 1000 ≠ 0 := by omega
  have hdd : t.nanos / 1000 / 1000 = t.nanos / 1000000 := by rw [Nat.div_div_eq_div_mul]
  have hd : (goTimeBase t ++ "." ++ String.mk (frac3 (t.nanos / 1000000))).data
      = ((goTimeBase t ++ ".").data ++ [])
        ++ [Nat.digitChar (t.nanos / 1000000 / 100 % 10),
            Nat.digitChar (t.nanos / 1000000 / 10 % 10),
            Nat.digitChar (t.nanos / 1000000 % 10)] := by
    rw [String.data_append]
    show (goTimeBase t ++ ".").data ++ frac3 (t.nanos / 1000000) = _
    rw [frac3_split, ← List.append_assoc]
  rw [formatTimestamp]
  rw [show (goTimeBase t ++ "." ++ String.mk (frac9 t.nanos))
      = ((goTimeBase t ++ "." ++ String.mk (frac3 (t.nanos / 1000000))) ++ "000") ++ "000" by
    rw [frac9_mod1000 t.nanos h3, frac6_mod1000 _ hm3, hdd, mk_append, mk_append,
      show String.mk ['0', '0', '0'] = "000" from rfl, ← String.append_assoc,
      ← String.append_assoc]]
  rw [trimSuffix_of_append, trimSuffix_of_append]
  have h2 : trimSuffix (goTimeBase t ++ "." ++ String.mk (frac3 (t.nanos / 1000000))) ".000"
      = goTimeBase t ++ "." ++ String.mk (frac3 (t.nanos / 1000000)) := by
    apply trimSuffix_of_not
    rw [hd]
    exact not_suffix_dot000 (frac9_tail_ne _ hr)
  rw [h2]

/-- Claim C9: a timestamp with zero nanoseconds renders in UTC with no
fractional digits followed by a literal `"Z"`, and in general the
fractional digits are trimmed to 0, 3, 6 or 9; a duration of exactly one
second renders as `"1s"`; a negative duration of 1.5 seconds renders with
a single leading `"-"` and the magnitude of the positive rendering; and
the sign is normalized so it applies uniformly even when only the
sub-second remainder is negative (-0.5s). -/
theorem claim_C9_formatting :
    (∀ t : GoTime, t.nanos = 0 → formatTimestamp t = goTimeBase t ++ "Z")
    ∧ (∀ t : GoTime, t.nanos < 1000000000 →
        ∃ d : List Char,
          (d.length = 0 ∨ d.length = 3 ∨ d.length = 6 ∨ d.length = 9)
          ∧ ((d = [] ∧ formatTimestamp t = goTimeBase t ++ "Z")
            ∨ (d ≠ [] ∧ formatTimestamp t = goTimeBase t ++ "." ++ String.mk d ++ "Z")))
    ∧ formatDuration 1000000000 = "1s"
    ∧ (formatDuration (-1500000000) = "-1.500s"
        ∧ formatDuration 1500000000 = "1.500s"
        ∧ formatDuration (-1500000000) = "-" ++ formatDuration 1500000000
        ∧ (formatDuration (-1500000000)).data.count '-' = 1
        ∧ (formatDuration (-1500000000)).data.head? = some '-')
    ∧ (formatDuration (-500000000) = "-0.500s"
        ∧ formatDuration (-500000000) = "-" ++ formatDuration 500000000) := by
  refine ⟨fun t h => formatTimestamp_zero t h, ?_, by decide,
    ⟨by decide, by decide, by decide, by decide, by decide⟩, ⟨by decide, by decide⟩⟩
  intro t hlt
  by_cases h0 : t.nanos = 0
  · exact ⟨[], Or.inl rfl, Or.inl ⟨rfl, formatTimestamp_zero t h0⟩⟩
  · by_cases h3 : t.nanos % 1000 = 0
    · by_cases h6 : t.nanos % 1000000 = 0
      · exact ⟨frac3 (t.nanos / 1000000), Or.inr (Or.inl rfl),
          Or.inr ⟨by simp [frac3], formatTimestamp_three t h6 h0 hlt⟩⟩
      · exact ⟨frac6 (t.nanos / 1000), Or.inr (Or.inr (Or.inl rfl)),
          Or.inr ⟨by simp [frac6], formatTimestamp_six t h3 h6⟩⟩
    · exact ⟨frac9 t.nanos, Or.inr (Or.inr (Or.inr rfl)),
        Or.inr ⟨by simp [frac9], formatTimestamp_nine t h3⟩⟩

/-- Witness for claim C9 at concrete timestamps (one with zero
nanoseconds, one with 21 ms). -/
theorem claim_C9_witness :
    formatTimestamp ⟨2023, 2, 11, 20, 30, 19, 0⟩
      = goTimeBase ⟨2023, 2, 11, 20, 30, 19, 0⟩ ++ "Z"
    ∧ (∃ d : List Char,
        (d.length = 0 ∨ d.length = 3 ∨ d.length = 6 ∨ d.length = 9)
        ∧ ((d = [] ∧ formatTimestamp ⟨1972, 1, 1, 10, 0, 20, 21000000⟩
              = goTimeBase ⟨1972, 1, 1, 10, 0, 20, 21000000⟩ ++ "Z")
          ∨ (d ≠ [] ∧ formatTimestamp ⟨1972, 1, 1, 10, 0, 20, 21000000⟩
              = goTimeBase ⟨1972, 1, 1, 10, 0, 20, 21000000⟩ ++ "." ++ String.mk d ++ "Z"))) :=
  ⟨claim_C9_formatting.1 ⟨2023, 2, 11, 20, 30, 19, 0⟩ rfl,
    claim_C9_formatting.2.1 ⟨1972, 1, 1, 10, 0, 20, 21000000⟩ (by decide)⟩

/-- Witness for claim C5: a concrete two-scope round trip over `Nat`
parent `7`, plus the unconditional-`End` parts at a concrete cell. -/
theorem claim_C5_witness :
    ((scenario (7 : Nat) BKind.arr [BKind.obj] "inner" ["outer"]).1 = 7
      ∧ (scenario (7 : Nat) BKind.arr [BKind.obj] "inner" ["outer"]).2.pooled
          = (List.range 1).reverse ++ [1]
      ∧ (scenario (7 : Nat) BKind.arr [BKind.obj] "inner" ["outer"]).2.dpanics = [])
    ∧ ((Chain.End (some 0) wChainSt).2.pooled = wChainSt.pooled ++ [0]
      ∧ Chain.End (none : Option Nat) wChainSt = (default, wChainSt)) :=
  ⟨claim_C5_chain_roundtrip.1 7 BKind.arr [BKind.obj] "inner" ["outer"] rfl,
    claim_C5_chain_roundtrip.2 wChainSt 0⟩

end Logiface
